import Mathlib

/-!
Verification development for a CPU triangle rasterizer and procedural
shading library (Rust sources: `triangle.rs`, `fragment_shaders.rs`).

Numeric modelling: the Rust code computes in `f32`; here all arithmetic is
exact over `ℚ`, matching the spec's "exact arithmetic" reading.  The
transcendental `f32` operations that have no exact rational counterpart
(`sin`, `sqrt`, `acos`, and `powf` with a non-integral exponent) are
threaded through every definition as an explicit parameter bundle
`RealOps`; every theorem below holds for an arbitrary interpretation of
that bundle unless it instantiates it concretely.  `powf`/`powi` with an
integral constant exponent is modelled as monoid power.  Division is exact
rational division except where the divisor can be zero on the control
path that a claim is about: there (`fdiv`) the IEEE behaviour is modelled
by `Option ℚ`, `none` standing for the non-finite (`±∞`/`NaN`) quotient,
which fails every ordered comparison just as in IEEE arithmetic.
-/

namespace Render

/-- Bundle of the transcendental `f32` operations used by the source,
left abstract: theorems hold for every interpretation. -/
structure RealOps where
  rsin : ℚ → ℚ
  rsqrt : ℚ → ℚ
  racos : ℚ → ℚ
  rpowf : ℚ → ℚ → ℚ

/-- 2D vector over exact rationals (models `nalgebra_glm::Vec2`). -/
structure Vec2 where
  x : ℚ
  y : ℚ
deriving DecidableEq

/-- 3D vector over exact rationals (models `nalgebra_glm::Vec3`). -/
structure Vec3 where
  x : ℚ
  y : ℚ
  z : ℚ
deriving DecidableEq

instance : Add Vec3 := ⟨fun a b => ⟨a.x + b.x, a.y + b.y, a.z + b.z⟩⟩

instance : Sub Vec3 := ⟨fun a b => ⟨a.x - b.x, a.y - b.y, a.z - b.z⟩⟩

instance : Neg Vec3 := ⟨fun a => ⟨-a.x, -a.y, -a.z⟩⟩

/-- Vector-times-scalar, as written `v * s` in the Rust shaders. -/
instance : HMul Vec3 ℚ Vec3 := ⟨fun a s => ⟨a.x * s, a.y * s, a.z * s⟩⟩

/-- Dot product (`nalgebra_glm::dot`). -/
def Vec3.dot (a b : Vec3) : ℚ :=
  a.x * b.x + a.y * b.y + a.z * b.z

/-- Squared Euclidean norm of a 3D vector. -/
def Vec3.normSq (v : Vec3) : ℚ :=
  v.x * v.x + v.y * v.y + v.z * v.z

/-- Euclidean norm via the abstract square root (`.magnitude()`). -/
def Vec3.magnitude (ops : RealOps) (v : Vec3) : ℚ :=
  ops.rsqrt v.normSq

/-- Componentwise division by the norm (`.normalize()`). -/
def Vec3.normalize (ops : RealOps) (v : Vec3) : Vec3 :=
  let m := Vec3.magnitude ops v
  ⟨v.x / m, v.y / m, v.z / m⟩

/-- Modelled from the spec: `Color` (`color.rs` is not in the sources):
three 8-bit channels, here natural numbers in `[0, 255]`. -/
structure Color where
  r : ℕ
  g : ℕ
  b : ℕ
deriving DecidableEq

/-- Modelled from the spec: `Color::new` stores the three 8-bit channels. -/
def Color.new (r g b : ℕ) : Color := ⟨r, g, b⟩

/-- Clamp into a closed interval, as `f32::clamp(lo, hi)`: larger bound
wins over the lower one, `min (max x lo) hi`. -/
def rclamp (x lo hi : ℚ) : ℚ := min (max x lo) hi

/-- Modelled from the spec: one floating channel to one 8-bit channel,
"out-of-range values clamped, not wrapped": clamp to `[0,1]`, scale to
`[0,255]`, truncate. -/
def Color.toByte (v : ℚ) : ℕ := (⌊rclamp v 0 1 * 255⌋).toNat

/-- Modelled from the spec: `Color::from_float` builds a color from three
floating channel values, clamping each to `[0,1]` first. -/
def Color.from_float (r g b : ℚ) : Color :=
  ⟨Color.toByte r, Color.toByte g, Color.toByte b⟩

/-- Modelled from the spec: `Fragment` (`fragment.rs` is not in the
sources): screen pixel coordinate, resolved color, scalar depth.
The rasterizer passes the integer pixel coordinates cast to float. -/
structure Fragment where
  x : ℚ
  y : ℚ
  color : Color
  depth : ℚ
deriving DecidableEq

/-- Modelled from the spec: `Fragment::new`. -/
def Fragment.new (x y : ℚ) (color : Color) (depth : ℚ) : Fragment :=
  ⟨x, y, color, depth⟩

/-- Modelled from the spec: `Vertex` (`vertex.rs` is not in the sources):
original position, normal, texture coordinate, plus the transformed
position and transformed normal populated by the external transform
stage. -/
structure Vertex where
  position : Vec3
  normal : Vec3
  tex_coords : Vec2
  transformed_position : Vec3
  transformed_normal : Vec3
deriving DecidableEq

/-- Type of fragment shaders (`FragmentShader` in `fragment_shaders.rs`). -/
def FragmentShader : Type :=
  Vertex → Vertex → Vertex → Vec3 → Vec3 → Vec2 → Color

/-! ## Rasterizer (`triangle.rs`) -/

/-- The 2D edge function of `triangle.rs`:
`(c.x - a.x) * (b.y - a.y) - (c.y - a.y) * (b.x - a.x)`. -/
def edge_function (a b c : Vec3) : ℚ :=
  (c.x - a.x) * (b.y - a.y) - (c.y - a.y) * (b.x - a.x)

/-- Division as performed by `f32`: an exact rational quotient when the
divisor is nonzero; `none` models the non-finite `±∞`/`NaN` results of a
zero divisor, all of which fail the ordered comparisons made on the
quotient downstream. -/
def fdiv (x y : ℚ) : Option ℚ :=
  if y = 0 then none else some (x / y)

/-- `barycentric_coordinates` of `triangle.rs`: the three edge-function
ratios against the full signed area. -/
def barycentric_coordinates (p a b c : Vec3) (area : ℚ) :
    Option ℚ × Option ℚ × Option ℚ :=
  (fdiv (edge_function b c p) area,
   fdiv (edge_function c a p) area,
   fdiv (edge_function a b p) area)

/-- `calculate_bounding_box` of `triangle.rs`: floor of the minima and
ceiling of the maxima of the screen x/y coordinates, as
`(min_x, min_y, max_x, max_y)`. -/
def calculate_bounding_box (v1 v2 v3 : Vec3) : ℤ × ℤ × ℤ × ℤ :=
  (⌊min (min v1.x v2.x) v3.x⌋,
   ⌊min (min v1.y v2.y) v3.y⌋,
   ⌈max (max v1.x v2.x) v3.x⌉,
   ⌈max (max v1.y v2.y) v3.y⌉)

/-- The inclusive integer range `lo..=hi` of a Rust `for` loop, empty when
`lo > hi`. -/
def intRange (lo hi : ℤ) : List ℤ :=
  (List.range (hi - lo + 1).toNat).map fun (i : ℕ) => lo + (i : ℤ)

/-- The interpolated normal of an inside pixel: barycentric blend of the
three *transformed* normals, re-normalized after interpolation
(`triangle.rs` lines 52-63). -/
def interp_normal (ops : RealOps) (v1 v2 v3 : Vertex) (w1 w2 w3 : ℚ) : Vec3 :=
  Vec3.normalize ops
    ⟨v1.transformed_normal.x * w1 + v2.transformed_normal.x * w2
        + v3.transformed_normal.x * w3,
     v1.transformed_normal.y * w1 + v2.transformed_normal.y * w2
        + v3.transformed_normal.y * w3,
     v1.transformed_normal.z * w1 + v2.transformed_normal.z * w2
        + v3.transformed_normal.z * w3⟩

/-- The interpolated position of an inside pixel: barycentric blend of the
three *original* (untransformed, world-space) vertex positions
(`triangle.rs` lines 66-70). -/
def interp_position (v1 v2 v3 : Vertex) (w1 w2 w3 : ℚ) : Vec3 :=
  ⟨v1.position.x * w1 + v2.position.x * w2 + v3.position.x * w3,
   v1.position.y * w1 + v2.position.y * w2 + v3.position.y * w3,
   v1.position.z * w1 + v2.position.z * w2 + v3.position.z * w3⟩

/-- The interpolated texture coordinate of an inside pixel
(`triangle.rs` lines 73-76). -/
def interp_tex (v1 v2 v3 : Vertex) (w1 w2 w3 : ℚ) : Vec2 :=
  ⟨v1.tex_coords.x * w1 + v2.tex_coords.x * w2 + v3.tex_coords.x * w3,
   v1.tex_coords.y * w1 + v2.tex_coords.y * w2 + v3.tex_coords.y * w3⟩

/-- The interpolated depth of an inside pixel: barycentric blend of the
three *transformed* z coordinates (`triangle.rs` line 82). -/
def interp_depth (a b c : Vec3) (w1 w2 w3 : ℚ) : ℚ :=
  a.z * w1 + b.z * w2 + c.z * w3

/-- Body of the doubly nested pixel loop of `triangle_with_shader` for one
pixel `(x, y)`: sample the pixel center, test the three barycentric
weights against the closed interval `[0,1]`, and if inside emit the
fragment with the interpolated attributes; weights that are non-finite
(`fdiv` returned `none`, possible only for a degenerate triangle) fail
the comparisons exactly as IEEE `NaN`/`±∞` do. -/
def rasterize_pixel (ops : RealOps) (v1 v2 v3 : Vertex)
    (fragment_shader : FragmentShader) (a b c : Vec3) (triangle_area : ℚ)
    (x y : ℤ) : Option Fragment :=
  let point : Vec3 := ⟨(x : ℚ) + 0.5, (y : ℚ) + 0.5, 0⟩
  match barycentric_coordinates point a b c triangle_area with
  | (some w1, some w2, some w3) =>
    if 0 ≤ w1 ∧ w1 ≤ 1 ∧ 0 ≤ w2 ∧ w2 ≤ 1 ∧ 0 ≤ w3 ∧ w3 ≤ 1 then
      let normal := interp_normal ops v1 v2 v3 w1 w2 w3
      let position := interp_position v1 v2 v3 w1 w2 w3
      let tex_coords := interp_tex v1 v2 v3 w1 w2 w3
      let color := fragment_shader v1 v2 v3 position normal tex_coords
      let depth := interp_depth a b c w1 w2 w3
      some (Fragment.new (x : ℚ) (y : ℚ) color depth)
    else none
  | (_, _, _) => none

/-- `triangle_with_shader` of `triangle.rs`: bounding box, signed area,
then the nested `for y ... for x ...` loop pushing the fragments of the
covered pixels. -/
def triangle_with_shader (ops : RealOps) (v1 v2 v3 : Vertex)
    (fragment_shader : FragmentShader) : List Fragment :=
  let a := v1.transformed_position
  let b := v2.transformed_position
  let c := v3.transformed_position
  let bb := calculate_bounding_box a b c
  let triangle_area := edge_function a b c
  (intRange bb.2.1 bb.2.2.2).flatMap fun y =>
    (intRange bb.1 bb.2.2.1).filterMap fun x =>
      rasterize_pixel ops v1 v2 v3 fragment_shader a b c triangle_area x y

/-- `triangle` of `triangle.rs`: `triangle_with_shader` with the constant
shader returning `Color::new(100, 100, 100)`. -/
def triangle (ops : RealOps) (v1 v2 v3 : Vertex) : List Fragment :=
  triangle_with_shader ops v1 v2 v3 (fun _ _ _ _ _ _ => Color.new 100 100 100)

/-! ## Noise primitives (`fragment_shaders.rs`) -/

/-- `hash` of `fragment_shaders.rs`: the fractional part of
`sin(n * 12.9898) * 43758.5453`. -/
def hash (ops : RealOps) (n : ℚ) : ℚ :=
  let x := ops.rsin (n * 12.9898) * 43758.5453
  x - ⌊x⌋

/-- `hash_vec3`: fold the 3D point into the scalar hash with fixed weights. -/
def hash_vec3 (ops : RealOps) (p : Vec3) : ℚ :=
  let n := p.x * 12.9898 + p.y * 78.233 + p.z * 45.164
  hash ops n

/-- `smoothstep`: cubic Hermite blend of the clamped parameter. -/
def smoothstep (edge0 edge1 x : ℚ) : ℚ :=
  let t := rclamp ((x - edge0) / (edge1 - edge0)) 0 1
  t * t * (3 - 2 * t)

/-- `noise` of `fragment_shaders.rs`: 3D value noise, trilinear blend of
the hashes of the 8 cell corners with smoothstepped weights. -/
def noise (ops : RealOps) (p : Vec3) : ℚ :=
  let i : Vec3 := ⟨(⌊p.x⌋ : ℚ), (⌊p.y⌋ : ℚ), (⌊p.z⌋ : ℚ)⟩
  let f : Vec3 := ⟨p.x - i.x, p.y - i.y, p.z - i.z⟩
  let u : Vec3 :=
    ⟨smoothstep 0 1 f.x, smoothstep 0 1 f.y, smoothstep 0 1 f.z⟩
  let a := hash_vec3 ops i
  let b := hash_vec3 ops ⟨i.x + 1, i.y, i.z⟩
  let c := hash_vec3 ops ⟨i.x, i.y + 1, i.z⟩
  let d := hash_vec3 ops ⟨i.x + 1, i.y + 1, i.z⟩
  let e := hash_vec3 ops ⟨i.x, i.y, i.z + 1⟩
  let f_val := hash_vec3 ops ⟨i.x + 1, i.y, i.z + 1⟩
  let g := hash_vec3 ops ⟨i.x, i.y + 1, i.z + 1⟩
  let h := hash_vec3 ops ⟨i.x + 1, i.y + 1, i.z + 1⟩
  let x1 := a + (b - a) * u.x
  let x2 := c + (d - c) * u.x
  let y1 := x1 + (x2 - x1) * u.y
  let x3 := e + (f_val - e) * u.x
  let x4 := g + (h - g) * u.x
  let y2 := x3 + (x4 - x3) * u.y
  y1 + (y2 - y1) * u.z

/-- State-passing form of the `for _ in 0..octaves` loop of `fbm`: the
three mutable locals `value`, `amplitude`, `frequency` become arguments. -/
def fbmAux (ops : RealOps) (p : Vec3) :
    ℚ → ℚ → ℚ → ℕ → ℚ
  | value, _, _, 0 => value
  | value, amplitude, frequency, octaves + 1 =>
    fbmAux ops p
      (value + amplitude * noise ops ⟨p.x * frequency, p.y * frequency, p.z * frequency⟩)
      (amplitude * 0.5) (frequency * 2) octaves

/-- `fbm` of `fragment_shaders.rs`: fractal sum of `octaves` noise
octaves, starting amplitude `0.5` and frequency `1`. -/
def fbm (ops : RealOps) (p : Vec3) (octaves : ℕ) : ℚ :=
  fbmAux ops p 0 0.5 1 octaves

/-! ## Shading library (`fragment_shaders.rs`)

Each Rust shader first computes a diffuse `intensity` from the normal and
its fixed light vector and then produces the three floating channel
values it passes to `Color::from_float`.  To let the theorems speak about
those channel values and about the intensity, each shader is split here
into `S_core` (the body after the `let intensity` line, returning the
channel triple), `S_channels` (`S_core` applied to the intensity the
source computes), and `S_shader` (`Color::from_float` of the triple),
with the source text otherwise followed line by line. -/

/-- The diffuse-intensity expression shared by the shaders
(`dot(n, light_dir).max(0)` applied to whichever vector each shader
dots). -/
def diffuse_intensity (n d : Vec3) : ℚ :=
  max (Vec3.dot n d) 0

/-- The diffuse intensity in the words of the spec:
`max(0, dot(normalize(normal), -light_direction))`. -/
def spec_diffuse_intensity (ops : RealOps) (normal light_direction : Vec3) : ℚ :=
  max (Vec3.dot (Vec3.normalize ops normal) (-light_direction)) 0

/-- Fixed light vector of `star_shader`. -/
def star_light_dir : Vec3 := ⟨0, 0, -1⟩

/-- Body of `star_shader` after its `intensity` line: base color, fbm
variation, center glow, flare, per-channel clamp, lighting factor. -/
def star_core (ops : RealOps) (intensity : ℚ) (position normal : Vec3)
    (_tex_coords : Vec2) : ℚ × ℚ × ℚ :=
  let base_color : Vec3 := ⟨1, 0.7, 0.3⟩
  let noise_value := fbm ops ⟨position.x * 5, position.y * 5, position.z * 5⟩ 3
  let variation := 0.1 * noise_value
  let center_dist := ops.rsqrt (position.x * position.x + position.y * position.y)
  let center_glow := (1 - min center_dist 1) ^ 2 * 0.3
  let flare := (normal.z * 0.5 + 0.5) ^ 3 * 0.2
  let r := rclamp (base_color.x + variation + center_glow + flare) 0 1
  let g := rclamp (base_color.y + variation * 0.5 + center_glow * 0.8 + flare * 0.9) 0 1
  let b := rclamp (base_color.z + variation * 0.3 + center_glow * 0.5) 0 1
  let light_factor := intensity * 0.7 + 0.3
  (r * light_factor, g * light_factor, b * light_factor)

/-- Channel triple `star_shader` passes to `Color::from_float`. -/
def star_channels (ops : RealOps) (_v1 _v2 _v3 : Vertex)
    (position normal : Vec3) (tex_coords : Vec2) : ℚ × ℚ × ℚ :=
  star_core ops (diffuse_intensity normal star_light_dir) position normal tex_coords

/-- `star_shader` of `fragment_shaders.rs`. -/
def star_shader (ops : RealOps) (v1 v2 v3 : Vertex)
    (position normal : Vec3) (tex_coords : Vec2) : Color :=
  let ch := star_channels ops v1 v2 v3 position normal tex_coords
  Color.from_float ch.1 ch.2.1 ch.2.2

/-- Fixed light vector of `rocky_planet_shader`. -/
def rocky_light_dir : Vec3 := ⟨0, 0, -1⟩

/-- The `f32` value of `std::f32::consts::PI`. -/
def f32_pi : ℚ := 13176795 / 4194304

/-- The pre-lighting `(r, g, b)` triple of `rocky_planet_shader`:
latitude, continent mask, ocean depth, land elevation, climate zones and
the land/ocean color blending (`fragment_shaders.rs` lines 122-202). -/
def rocky_rgb (ops : RealOps) (position : Vec3) : ℚ × ℚ × ℚ :=
  let lat := ops.racos (position.y / Vec3.magnitude ops position)
  let continent_noise := fbm ops ⟨position.x * 2, position.y * 2, position.z * 2⟩ 4
  let is_land := 0.1 < continent_noise
  let ocean_depth :=
    if ¬ is_land then
      fbm ops ⟨position.x * 3, position.y * 3, position.z * 3⟩ 3 * 0.3 + 0.7
    else 0
  let elevation :=
    if is_land then
      fbm ops ⟨position.x * 4, position.y * 4, position.z * 4⟩ 3 * 0.5 + 0.5
    else 0
  let climate := |lat / f32_pi|
  let is_polar := 0.7 < climate
  let is_tropical := climate < 0.3
  if is_land then
    let base_green : Vec3 := ⟨0.2, 0.6, 0.2⟩
    let brown : Vec3 := ⟨0.4, 0.3, 0.2⟩
    let snow : Vec3 := ⟨0.9, 0.9, 0.95⟩
    let land_color : Vec3 :=
      if is_polar then
        ⟨base_green.x * 0.3 + snow.x * 0.7,
         base_green.y * 0.3 + snow.y * 0.7,
         base_green.z * 0.3 + snow.z * 0.7⟩
      else if is_tropical then
        ⟨base_green.x * 0.8 + brown.x * 0.2,
         base_green.y * 0.8 + brown.y * 0.2,
         base_green.z * 0.8 + brown.z * 0.2⟩
      else
        let mix_factor := elevation * 0.5
        ⟨base_green.x * (1 - mix_factor) + brown.x * mix_factor,
         base_green.y * (1 - mix_factor) + brown.y * mix_factor,
         base_green.z * (1 - mix_factor) + brown.z * mix_factor⟩
    (land_color.x, land_color.y, land_color.z)
  else
    let deep_blue : Vec3 := ⟨0, 0.2, 0.5⟩
    let shallow_blue : Vec3 := ⟨0.2, 0.4, 0.7⟩
    let ocean_color : Vec3 :=
      ⟨deep_blue.x * ocean_depth + shallow_blue.x * (1 - ocean_depth),
       deep_blue.y * ocean_depth + shallow_blue.y * (1 - ocean_depth),
       deep_blue.z * ocean_depth + shallow_blue.z * (1 - ocean_depth)⟩
    (ocean_color.x, ocean_color.y, ocean_color.z)

/-- Body of `rocky_planet_shader` after its `intensity` line: the
pre-lighting `rocky_rgb` triple, lit with ambient `0.2`. -/
def rocky_core (ops : RealOps) (intensity : ℚ) (position _normal : Vec3)
    (_tex_coords : Vec2) : ℚ × ℚ × ℚ :=
  let rgb := rocky_rgb ops position
  let light_factor := intensity * 0.8 + 0.2
  (rgb.1 * light_factor, rgb.2.1 * light_factor, rgb.2.2 * light_factor)

/-- Channel triple `rocky_planet_shader` passes to `Color::from_float`. -/
def rocky_channels (ops : RealOps) (_v1 _v2 _v3 : Vertex)
    (position normal : Vec3) (tex_coords : Vec2) : ℚ × ℚ × ℚ :=
  rocky_core ops (diffuse_intensity normal rocky_light_dir) position normal tex_coords

/-- `rocky_planet_shader` of `fragment_shaders.rs`. -/
def rocky_planet_shader (ops : RealOps) (v1 v2 v3 : Vertex)
    (position normal : Vec3) (tex_coords : Vec2) : Color :=
  let ch := rocky_channels ops v1 v2 v3 position normal tex_coords
  Color.from_float ch.1 ch.2.1 ch.2.2

/-- Fixed light vector of `azure_planet_shader`:
`Vec3::new(0.1, 0.2, -1).normalize()`. -/
def azure_light_dir (ops : RealOps) : Vec3 :=
  Vec3.normalize ops ⟨0.1, 0.2, -1⟩

/-- Body of `azure_planet_shader` after its `intensity` line. -/
def azure_core (ops : RealOps) (intensity : ℚ) (position normal : Vec3)
    (_tex_coords : Vec2) : ℚ × ℚ × ℚ :=
  let polar_noise := fbm ops ⟨position.x * 4, position.y * 4, position.z * 4⟩ 4
  let ocean_noise := fbm ops ⟨position.x * 2.5, position.y * 2.5, position.z * 2.5⟩ 3
  let ice_caps :=
    rclamp ((|position.y| / Vec3.magnitude ops position) ^ 4 + polar_noise * 0.3) 0 1
  let ocean_mix := rclamp (ocean_noise * 1.2 - 0.2) 0 1
  let abyss : Vec3 := ⟨0.02, 0.18, 0.4⟩
  let lagoon : Vec3 := ⟨0.18, 0.66, 0.96⟩
  let aurora : Vec3 := ⟨0.5, 0.9, 1⟩
  let base_water : Vec3 := abyss * (1 - ocean_mix) + lagoon * ocean_mix
  let cloud_bands :=
    (fbm ops ⟨position.x * 6, position.y * 6, position.z * 6⟩ 5) ^ 3
  let cloud_color : Vec3 := ⟨0.85, 0.95, 1⟩
  let mixed : Vec3 := base_water * (1 - cloud_bands) + cloud_color * cloud_bands
  let ice_color : Vec3 := aurora * (0.6 + ice_caps * 0.4)
  let final_base : Vec3 := mixed * (1 - ice_caps) + ice_color * ice_caps
  let highlight := (normal.y * 0.5 + 0.5) ^ 8 * 0.3
  let final_color : Vec3 := final_base * (intensity * 0.75 + 0.25)
      + (⟨highlight, highlight, highlight * 0.8⟩ : Vec3)
  (rclamp final_color.x 0 1, rclamp final_color.y 0 1,
   rclamp final_color.z 0 1)

/-- Channel triple `azure_planet_shader` passes to `Color::from_float`. -/
def azure_channels (ops : RealOps) (_v1 _v2 _v3 : Vertex)
    (position normal : Vec3) (tex_coords : Vec2) : ℚ × ℚ × ℚ :=
  azure_core ops
    (diffuse_intensity (Vec3.normalize ops normal) (azure_light_dir ops))
    position normal tex_coords

/-- `azure_planet_shader` of `fragment_shaders.rs`. -/
def azure_planet_shader (ops : RealOps) (v1 v2 v3 : Vertex)
    (position normal : Vec3) (tex_coords : Vec2) : Color :=
  let ch := azure_channels ops v1 v2 v3 position normal tex_coords
  Color.from_float ch.1 ch.2.1 ch.2.2

/-- Fixed light vector of `crimson_planet_shader`:
`Vec3::new(-0.2, 0.4, -1).normalize()`. -/
def crimson_light_dir (ops : RealOps) : Vec3 :=
  Vec3.normalize ops ⟨-0.2, 0.4, -1⟩

/-- Body of `crimson_planet_shader` after its `intensity` line.  The
non-integral exponent `powf(1.6)` is the abstract `rpowf`. -/
def crimson_core (ops : RealOps) (intensity : ℚ) (position normal : Vec3)
    (_tex_coords : Vec2) : ℚ × ℚ × ℚ :=
  let basalt_noise := fbm ops ⟨position.x * 3.5, position.y * 3.5, position.z * 3.5⟩ 4
  let fissure_noise := fbm ops ⟨position.x * 8, position.y * 8, position.z * 8⟩ 5
  let crater_mask := |basalt_noise - 0.45|
  let lava_threshold := rclamp (fissure_noise * 1.4 - 0.5) 0 1
  let basalt : Vec3 := ⟨0.2, 0.05, 0.05⟩
  let ember : Vec3 := ⟨0.74, 0.16, 0.08⟩
  let lava_core : Vec3 := ⟨1, 0.42, 0.18⟩
  let lava_mix := ops.rpowf lava_threshold 1.6
  let surface_color : Vec3 := basalt * (1 - lava_mix) + ember * lava_mix
  let molten_core : Vec3 := surface_color * (1 - lava_mix) + lava_core * lava_mix
  let crater_color : Vec3 := surface_color * (0.5 + crater_mask * 0.4)
  let final_base : Vec3 := crater_color * (1 - lava_mix) + molten_core * lava_mix
  let rim_specular := (normal.y * 0.5 + 0.5) ^ 8 * 0.3
  let glow := lava_mix * 0.4
  let shaded : Vec3 := final_base * (intensity * 0.8 + 0.2)
      + (⟨glow, glow * 0.6, glow * 0.4⟩ : Vec3)
  (rclamp (shaded.x + rim_specular) 0 1,
   rclamp (shaded.y + rim_specular * 0.4) 0 1,
   rclamp shaded.z 0 1)

/-- Channel triple `crimson_planet_shader` passes to `Color::from_float`. -/
def crimson_channels (ops : RealOps) (_v1 _v2 _v3 : Vertex)
    (position normal : Vec3) (tex_coords : Vec2) : ℚ × ℚ × ℚ :=
  crimson_core ops
    (diffuse_intensity (Vec3.normalize ops normal) (crimson_light_dir ops))
    position normal tex_coords

/-- `crimson_planet_shader` of `fragment_shaders.rs`. -/
def crimson_planet_shader (ops : RealOps) (v1 v2 v3 : Vertex)
    (position normal : Vec3) (tex_coords : Vec2) : Color :=
  let ch := crimson_channels ops v1 v2 v3 position normal tex_coords
  Color.from_float ch.1 ch.2.1 ch.2.2

/-- Fixed light vector of `gas_giant_shader`. -/
def gas_light_dir : Vec3 := ⟨0, 0, -1⟩

/-- Body of `gas_giant_shader` after its `intensity` line. -/
def gas_core (ops : RealOps) (intensity : ℚ) (position _normal : Vec3)
    (_tex_coords : Vec2) : ℚ × ℚ × ℚ :=
  let lat := position.y / Vec3.magnitude ops position
  let band_freq := 8
  let band := ops.rsin (lat * band_freq) * 0.5 + 0.5
  let turbulence := fbm ops ⟨position.x * 3, position.y * 3, position.z * 3⟩ 4
  let swirl := (turbulence * 2 - 1) * 0.3
  let color_variation :=
    fbm ops ⟨position.x * 5, position.y * 5, position.z * 5⟩ 3 * 0.2
  let spot_pos : Vec3 := ⟨0, 0.3, 0.8⟩
  let spot_dist := Vec3.magnitude ops (Vec3.normalize ops position - spot_pos)
  let spot := if spot_dist < 0.3 then (1 - spot_dist / 0.3) ^ 2 * 0.4 else 0
  let dark_band : Vec3 := ⟨0.5, 0.3, 0.2⟩
  let light_band : Vec3 := ⟨0.8, 0.7, 0.6⟩
  let red_spot : Vec3 := ⟨0.8, 0.3, 0.2⟩
  let base_color : Vec3 := dark_band * (1 - band) + light_band * band
  let swirled_color : Vec3 := base_color + (⟨swirl, swirl * 0.5, -swirl * 0.3⟩ : Vec3)
  let varied_color : Vec3 := swirled_color
      + (⟨color_variation, color_variation * 0.5, -color_variation * 0.3⟩ : Vec3)
  let final_base : Vec3 := varied_color * (1 - spot) + red_spot * spot
  let final_color : Vec3 := final_base * (intensity * 0.7 + 0.3)
  (rclamp final_color.x 0 1, rclamp final_color.y 0 1,
   rclamp final_color.z 0 1)

/-- Channel triple `gas_giant_shader` passes to `Color::from_float`. -/
def gas_channels (ops : RealOps) (_v1 _v2 _v3 : Vertex)
    (position normal : Vec3) (tex_coords : Vec2) : ℚ × ℚ × ℚ :=
  gas_core ops (diffuse_intensity normal gas_light_dir) position normal tex_coords

/-- `gas_giant_shader` of `fragment_shaders.rs`. -/
def gas_giant_shader (ops : RealOps) (v1 v2 v3 : Vertex)
    (position normal : Vec3) (tex_coords : Vec2) : Color :=
  let ch := gas_channels ops v1 v2 v3 position normal tex_coords
  Color.from_float ch.1 ch.2.1 ch.2.2

/-- Fixed light vector of `moon_shader`. -/
def moon_light_dir : Vec3 := ⟨0, 0, -1⟩

/-- The pre-lighting gray value of `moon_shader`: base gray `0.5`
darkened by the crater term and clamped into `[0.2, 0.8]`. -/
def moon_gray (ops : RealOps) (position : Vec3) : ℚ :=
  let base_gray := 0.5
  let craters := fbm ops ⟨position.x * 8, position.y * 8, position.z * 8⟩ 4
  let crater_depth := |craters - 0.5| * 2
  let crater := if 0.7 < crater_depth then crater_depth * 0.3 else 0
  rclamp (base_gray - crater) 0.2 0.8

/-- Body of `moon_shader` after its `intensity` line: gray base with
craters, lit by `intensity * 0.9 + 0.1`, same value on all channels. -/
def moon_core (ops : RealOps) (intensity : ℚ) (position _normal : Vec3)
    (_tex_coords : Vec2) : ℚ × ℚ × ℚ :=
  let gray := moon_gray ops position
  let final_gray := gray * (intensity * 0.9 + 0.1)
  (final_gray, final_gray, final_gray)

/-- Channel triple `moon_shader` passes to `Color::from_float`. -/
def moon_channels (ops : RealOps) (_v1 _v2 _v3 : Vertex)
    (position normal : Vec3) (tex_coords : Vec2) : ℚ × ℚ × ℚ :=
  moon_core ops (diffuse_intensity normal moon_light_dir) position normal tex_coords

/-- `moon_shader` of `fragment_shaders.rs`. -/
def moon_shader (ops : RealOps) (v1 v2 v3 : Vertex)
    (position normal : Vec3) (tex_coords : Vec2) : Color :=
  let ch := moon_channels ops v1 v2 v3 position normal tex_coords
  Color.from_float ch.1 ch.2.1 ch.2.2

/-- Fixed light vector of `ring_shader`. -/
def ring_light_dir : Vec3 := ⟨0, 0, -1⟩

/-- Body of `ring_shader` after its `intensity` line: radial gradient from
the texture coordinate, fbm speckle, lighting. -/
def ring_core (ops : RealOps) (intensity : ℚ) (position _normal : Vec3)
    (tex_coords : Vec2) : ℚ × ℚ × ℚ :=
  let radial := tex_coords.y
  let inner_color : Vec3 := ⟨0.4, 0.35, 0.3⟩
  let outer_color : Vec3 := ⟨0.5, 0.45, 0.4⟩
  let color : Vec3 :=
    ⟨inner_color.x * (1 - radial) + outer_color.x * radial,
     inner_color.y * (1 - radial) + outer_color.y * radial,
     inner_color.z * (1 - radial) + outer_color.z * radial⟩
  let variation :=
    fbm ops ⟨position.x * 10, position.y * 10, position.z * 10⟩ 2 * 0.1
  let final_color : Vec3 :=
    ⟨color.x + variation, color.y + variation, color.z + variation⟩
  let light_factor := intensity * 0.6 + 0.4
  let ring_final : Vec3 :=
    ⟨final_color.x * light_factor, final_color.y * light_factor,
     final_color.z * light_factor⟩
  (rclamp ring_final.x 0 1, rclamp ring_final.y 0 1,
   rclamp ring_final.z 0 1)

/-- Channel triple `ring_shader` passes to `Color::from_float`. -/
def ring_channels (ops : RealOps) (_v1 _v2 _v3 : Vertex)
    (position normal : Vec3) (tex_coords : Vec2) : ℚ × ℚ × ℚ :=
  ring_core ops (diffuse_intensity normal ring_light_dir) position normal tex_coords

/-- `ring_shader` of `fragment_shaders.rs`. -/
def ring_shader (ops : RealOps) (v1 v2 v3 : Vertex)
    (position normal : Vec3) (tex_coords : Vec2) : Color :=
  let ch := ring_channels ops v1 v2 v3 position normal tex_coords
  Color.from_float ch.1 ch.2.1 ch.2.2

/-- Fixed light vector of `ship_shader`:
`Vec3::new(0.3, -0.8, -0.5).normalize()`. -/
def ship_light_dir (ops : RealOps) : Vec3 :=
  Vec3.normalize ops ⟨0.3, -0.8, -0.5⟩

/-- Body of `ship_shader` after its `intensity` line. -/
def ship_core (ops : RealOps) (intensity : ℚ) (position normal : Vec3)
    (_tex_coords : Vec2) : ℚ × ℚ × ℚ :=
  let base_gray : Vec3 := ⟨0.58, 0.6, 0.63⟩
  let dark_plate : Vec3 := ⟨0.25, 0.27, 0.3⟩
  let panel_variation :=
    rclamp (fbm ops ⟨position.x * 7, position.y * 7, position.z * 7⟩ 3) 0 1
  let panel_color : Vec3 := dark_plate * (1 - panel_variation) + base_gray * panel_variation
  let edge_highlight := (normal.y * 0.5 + 0.5) ^ 6 * 0.25
  let engine_glow := |ops.rsin (position.y * 0.4)| * 0.05
  let specular := max (Vec3.normalize ops normal).z 0 ^ 6 * 0.5
  let lit : Vec3 := panel_color * (intensity * 0.65 + 0.35)
      + (⟨edge_highlight, edge_highlight, edge_highlight⟩ : Vec3)
  (rclamp (lit.x + specular + engine_glow) 0 1,
   rclamp (lit.y + specular + engine_glow) 0 1,
   rclamp (lit.z + specular + engine_glow) 0 1)

/-- Channel triple `ship_shader` passes to `Color::from_float`. -/
def ship_channels (ops : RealOps) (_v1 _v2 _v3 : Vertex)
    (position normal : Vec3) (tex_coords : Vec2) : ℚ × ℚ × ℚ :=
  ship_core ops
    (diffuse_intensity (Vec3.normalize ops normal) (ship_light_dir ops))
    position normal tex_coords

/-- `ship_shader` of `fragment_shaders.rs`. -/
def ship_shader (ops : RealOps) (v1 v2 v3 : Vertex)
    (position normal : Vec3) (tex_coords : Vec2) : Color :=
  let ch := ship_channels ops v1 v2 v3 position normal tex_coords
  Color.from_float ch.1 ch.2.1 ch.2.2

/-! ## Spec-side geometric notions and sample interpretations -/

/-- A point lies in the closed triangle `a b c` (2D, screen plane):
it is a convex combination of the three vertices.  Its complement is the
set of points strictly outside the triangle. -/
def inTriangle (p a b c : Vec3) : Prop :=
  ∃ l1 l2 l3 : ℚ, 0 ≤ l1 ∧ 0 ≤ l2 ∧ 0 ≤ l3 ∧ l1 + l2 + l3 = 1 ∧
    p.x = l1 * a.x + l2 * b.x + l3 * c.x ∧
    p.y = l1 * a.y + l2 * b.y + l3 * c.y

/-- A concrete interpretation of the abstract transcendental operations,
used to evaluate witnesses and counterexamples on concrete inputs (every
universally-quantified theorem holds for it in particular; the inputs of
each witness are chosen so that the conclusion checked is the one the
true `f32` operations also produce). -/
def sampleOps : RealOps :=
  ⟨fun _ => 0, fun q => q, fun _ => 0, fun _ _ => 0⟩

/-- A concrete vertex for witnesses and counterexamples. -/
def v0 : Vertex := ⟨⟨0, 0, 0⟩, ⟨0, 0, 1⟩, ⟨0, 0⟩, ⟨0, 0, 0⟩, ⟨0, 0, 1⟩⟩

/-- Vertex with the collinear transformed position `(0,0)` named by the
spec's degenerate example. -/
def dv1 : Vertex := ⟨⟨0, 0, 0⟩, ⟨0, 0, 1⟩, ⟨0, 0⟩, ⟨0, 0, 0⟩, ⟨0, 0, 1⟩⟩

/-- Vertex with the collinear transformed position `(1,1)`. -/
def dv2 : Vertex := ⟨⟨1, 1, 0⟩, ⟨0, 0, 1⟩, ⟨1, 0⟩, ⟨1, 1, 0⟩, ⟨0, 0, 1⟩⟩

/-- Vertex with the collinear transformed position `(2,2)`. -/
def dv3 : Vertex := ⟨⟨2, 2, 0⟩, ⟨0, 0, 1⟩, ⟨0, 1⟩, ⟨2, 2, 0⟩, ⟨0, 0, 1⟩⟩

/-- The constant shader used by `triangle` (`Color::new(100,100,100)`). -/
def constShader : FragmentShader := fun _ _ _ _ _ _ => Color.new 100 100 100

/-- Vertex of the unit-area right triangle with transformed position
`(2, 0, 0)`. -/
def uv2 : Vertex := ⟨⟨2, 0, 0⟩, ⟨0, 0, 1⟩, ⟨1, 0⟩, ⟨2, 0, 0⟩, ⟨0, 0, 1⟩⟩

/-- Vertex of the unit-area right triangle with transformed position
`(0, 2, 0)`. -/
def uv3 : Vertex := ⟨⟨0, 2, 0⟩, ⟨0, 0, 1⟩, ⟨0, 1⟩, ⟨0, 2, 0⟩, ⟨0, 0, 1⟩⟩

/-- All three channel values of a shader output triple lie in the unit
interval `[0, 1]`. -/
def channels_in_unit (t : ℚ × ℚ × ℚ) : Prop :=
  0 ≤ t.1 ∧ t.1 ≤ 1 ∧ 0 ≤ t.2.1 ∧ t.2.1 ≤ 1 ∧ 0 ≤ t.2.2 ∧ t.2.2 ≤ 1

/-! ## Lemmas: integer ranges and loop membership -/

theorem mem_intRange {lo hi z : ℤ} : z ∈ intRange lo hi ↔ lo ≤ z ∧ z ≤ hi := by
  unfold intRange
  rw [List.mem_map]
  constructor
  · rintro ⟨i, hlt, rfl⟩
    rw [List.mem_range] at hlt
    omega
  · rintro ⟨h1, h2⟩
    exact ⟨(z - lo).toNat, List.mem_range.mpr (by omega), by omega⟩

theorem rasterize_pixel_eq_some_iff {ops : RealOps} {v1 v2 v3 : Vertex}
    {sh : FragmentShader} {a b c : Vec3} {A : ℚ} {x y : ℤ} {f : Fragment} :
    rasterize_pixel ops v1 v2 v3 sh a b c A x y = some f ↔
    ∃ w1 w2 w3 : ℚ,
      fdiv (edge_function b c ⟨(x : ℚ) + 0.5, (y : ℚ) + 0.5, 0⟩) A = some w1 ∧
      fdiv (edge_function c a ⟨(x : ℚ) + 0.5, (y : ℚ) + 0.5, 0⟩) A = some w2 ∧
      fdiv (edge_function a b ⟨(x : ℚ) + 0.5, (y : ℚ) + 0.5, 0⟩) A = some w3 ∧
      (0 ≤ w1 ∧ w1 ≤ 1 ∧ 0 ≤ w2 ∧ w2 ≤ 1 ∧ 0 ≤ w3 ∧ w3 ≤ 1) ∧
      f = Fragment.new (x : ℚ) (y : ℚ)
        (sh v1 v2 v3 (interp_position v1 v2 v3 w1 w2 w3)
          (interp_normal ops v1 v2 v3 w1 w2 w3) (interp_tex v1 v2 v3 w1 w2 w3))
        (interp_depth a b c w1 w2 w3) := by
  unfold rasterize_pixel barycentric_coordinates
  rcases hw1 : fdiv (edge_function b c ⟨(x : ℚ) + 0.5, (y : ℚ) + 0.5, 0⟩) A with _ | w1 <;>
    rcases hw2 : fdiv (edge_function c a ⟨(x : ℚ) + 0.5, (y : ℚ) + 0.5, 0⟩) A with _ | w2 <;>
      rcases hw3 : fdiv (edge_function a b ⟨(x : ℚ) + 0.5, (y : ℚ) + 0.5, 0⟩) A with _ | w3 <;>
        simp only [hw1, hw2, hw3, Option.some.injEq, reduceCtorEq, false_and,
          and_false, exists_const, exists_false, iff_false] <;>
        try exact fun h => by simp at h
  constructor
  · intro h
    split at h
    · next hc =>
      exact ⟨w1, w2, w3, rfl, rfl, rfl, hc, ((Option.some.injEq _ _).mp h).symm⟩
    · exact absurd h (by simp)
  · rintro ⟨w1', w2', w3', rfl, rfl, rfl, hb, rfl⟩
    rw [if_pos hb]

theorem mem_triangle_with_shader_iff {ops : RealOps} {v1 v2 v3 : Vertex}
    {sh : FragmentShader} {f : Fragment} :
    f ∈ triangle_with_shader ops v1 v2 v3 sh ↔
    ∃ x y : ℤ,
      ((calculate_bounding_box v1.transformed_position v2.transformed_position
          v3.transformed_position).1 ≤ x ∧
        x ≤ (calculate_bounding_box v1.transformed_position v2.transformed_position
          v3.transformed_position).2.2.1) ∧
      ((calculate_bounding_box v1.transformed_position v2.transformed_position
          v3.transformed_position).2.1 ≤ y ∧
        y ≤ (calculate_bounding_box v1.transformed_position v2.transformed_position
          v3.transformed_position).2.2.2) ∧
      rasterize_pixel ops v1 v2 v3 sh v1.transformed_position
        v2.transformed_position v3.transformed_position
        (edge_function v1.transformed_position v2.transformed_position
          v3.transformed_position) x y = some f := by
  unfold triangle_with_shader
  simp only [List.mem_flatMap, List.mem_filterMap, mem_intRange]
  constructor
  · rintro ⟨y, hy, x, hx, hr⟩
    exact ⟨x, y, hx, hy, hr⟩
  · rintro ⟨x, y, hx, hy, hr⟩
    exact ⟨y, hy, x, hx, hr⟩

/-- If the three barycentric weights of pixel `(x, y)`'s center are in
`[0, 1]` and the pixel is in the bounding box, the rasterizer emits the
fragment with the shader color of the interpolated attributes. -/
theorem fragment_emitted_of_weights {ops : RealOps} {sh : FragmentShader}
    {v1 v2 v3 : Vertex} {x y : ℤ} {w1 w2 w3 : ℚ}
    (hA : edge_function v1.transformed_position v2.transformed_position
      v3.transformed_position ≠ 0)
    (e1 : edge_function v2.transformed_position v3.transformed_position
        ⟨(x : ℚ) + 0.5, (y : ℚ) + 0.5, 0⟩ /
      edge_function v1.transformed_position v2.transformed_position
        v3.transformed_position = w1)
    (e2 : edge_function v3.transformed_position v1.transformed_position
        ⟨(x : ℚ) + 0.5, (y : ℚ) + 0.5, 0⟩ /
      edge_function v1.transformed_position v2.transformed_position
        v3.transformed_position = w2)
    (e3 : edge_function v1.transformed_position v2.transformed_position
        ⟨(x : ℚ) + 0.5, (y : ℚ) + 0.5, 0⟩ /
      edge_function v1.transformed_position v2.transformed_position
        v3.transformed_position = w3)
    (hx : (calculate_bounding_box v1.transformed_position v2.transformed_position
        v3.transformed_position).1 ≤ x ∧
      x ≤ (calculate_bounding_box v1.transformed_position v2.transformed_position
        v3.transformed_position).2.2.1)
    (hy : (calculate_bounding_box v1.transformed_position v2.transformed_position
        v3.transformed_position).2.1 ≤ y ∧
      y ≤ (calculate_bounding_box v1.transformed_position v2.transformed_position
        v3.transformed_position).2.2.2)
    (hb : 0 ≤ w1 ∧ w1 ≤ 1 ∧ 0 ≤ w2 ∧ w2 ≤ 1 ∧ 0 ≤ w3 ∧ w3 ≤ 1) :
    Fragment.new (x : ℚ) (y : ℚ)
      (sh v1 v2 v3 (interp_position v1 v2 v3 w1 w2 w3)
        (interp_normal ops v1 v2 v3 w1 w2 w3) (interp_tex v1 v2 v3 w1 w2 w3))
      (interp_depth v1.transformed_position v2.transformed_position
        v3.transformed_position w1 w2 w3) ∈
      triangle_with_shader ops v1 v2 v3 sh := by
  rw [mem_triangle_with_shader_iff]
  exact ⟨x, y, hx, hy, rasterize_pixel_eq_some_iff.mpr
    ⟨w1, w2, w3, by rw [fdiv, if_neg hA, e1], by rw [fdiv, if_neg hA, e2],
     by rw [fdiv, if_neg hA, e3], hb, rfl⟩⟩

/-! ## C1: degenerate triangles emit no fragments -/

/-- C1: for every triangle whose three transformed screen-space vertices
have zero signed area, `triangle_with_shader` emits no fragments: the
division of the edge-function values by the zero area only produces
non-finite weights, every pixel fails the inside test, and the function
totally returns the empty fragment list. -/
theorem c1_zero_area_emits_no_fragments (ops : RealOps) (v1 v2 v3 : Vertex)
    (sh : FragmentShader)
    (h : edge_function v1.transformed_position v2.transformed_position
      v3.transformed_position = 0) :
    triangle_with_shader ops v1 v2 v3 sh = [] := by
  rw [List.eq_nil_iff_forall_not_mem]
  intro f hf
  rw [mem_triangle_with_shader_iff] at hf
  obtain ⟨x, y, _, _, hr⟩ := hf
  rw [rasterize_pixel_eq_some_iff] at hr
  obtain ⟨w1, _, _, h1, _⟩ := hr
  rw [h] at h1
  simp [fdiv] at h1

theorem c1_zero_area_emits_no_fragments_witness :
    edge_function dv1.transformed_position dv2.transformed_position
      dv3.transformed_position = 0 ∧
    triangle_with_shader sampleOps dv1 dv2 dv3 constShader = [] :=
  ⟨of_decide_eq_true (by with_unfolding_all rfl),
   c1_zero_area_emits_no_fragments sampleOps dv1 dv2 dv3 constShader
    (of_decide_eq_true (by with_unfolding_all rfl))⟩

/-! ## C2: the inside test characterizes emitted fragments -/

/-- C2: for a triangle of nonzero signed area and any integer pixel
`(x, y)` of its bounding box, `triangle_with_shader` emits a fragment at
`(x, y)` exactly when the three barycentric weights at the pixel center
`(x + 0.5, y + 0.5)` — the ratios of the edge-function values to the
total signed area — all lie in the closed interval `[0, 1]`. -/
theorem c2_fragment_iff_weights_in_unit_interval (ops : RealOps)
    (sh : FragmentShader) (v1 v2 v3 : Vertex) (a b c : Vec3) (x y : ℤ)
    (ha : v1.transformed_position = a) (hb : v2.transformed_position = b)
    (hc : v3.transformed_position = c)
    (hA : edge_function a b c ≠ 0)
    (hx : (calculate_bounding_box a b c).1 ≤ x ∧
      x ≤ (calculate_bounding_box a b c).2.2.1)
    (hy : (calculate_bounding_box a b c).2.1 ≤ y ∧
      y ≤ (calculate_bounding_box a b c).2.2.2) :
    (∃ col d, Fragment.new (x : ℚ) (y : ℚ) col d ∈
      triangle_with_shader ops v1 v2 v3 sh) ↔
    (0 ≤ edge_function b c ⟨(x : ℚ) + 0.5, (y : ℚ) + 0.5, 0⟩ / edge_function a b c ∧
     edge_function b c ⟨(x : ℚ) + 0.5, (y : ℚ) + 0.5, 0⟩ / edge_function a b c ≤ 1 ∧
     0 ≤ edge_function c a ⟨(x : ℚ) + 0.5, (y : ℚ) + 0.5, 0⟩ / edge_function a b c ∧
     edge_function c a ⟨(x : ℚ) + 0.5, (y : ℚ) + 0.5, 0⟩ / edge_function a b c ≤ 1 ∧
     0 ≤ edge_function a b ⟨(x : ℚ) + 0.5, (y : ℚ) + 0.5, 0⟩ / edge_function a b c ∧
     edge_function a b ⟨(x : ℚ) + 0.5, (y : ℚ) + 0.5, 0⟩ / edge_function a b c ≤ 1) := by
  subst ha
  subst hb
  subst hc
  constructor
  · rintro ⟨col, d, hmem⟩
    rw [mem_triangle_with_shader_iff] at hmem
    obtain ⟨x', y', hx', hy', hr⟩ := hmem
    rw [rasterize_pixel_eq_some_iff] at hr
    obtain ⟨w1, w2, w3, h1, h2, h3, hbnd, heq⟩ := hr
    have hxx : (x : ℚ) = (x' : ℚ) := congrArg Fragment.x heq
    have hyy : (y : ℚ) = (y' : ℚ) := congrArg Fragment.y heq
    have hx'' : x = x' := by exact_mod_cast hxx
    have hy'' : y = y' := by exact_mod_cast hyy
    subst hx''
    subst hy''
    rw [fdiv, if_neg hA, Option.some.injEq] at h1 h2 h3
    rw [← h1, ← h2, ← h3] at hbnd
    exact hbnd
  · intro hw
    exact ⟨_, _, fragment_emitted_of_weights hA rfl rfl rfl hx hy (by tauto)⟩

theorem c2_fragment_iff_weights_in_unit_interval_witness :
    dv1.transformed_position = (⟨0, 0, 0⟩ : Vec3) ∧
    edge_function ⟨0, 0, 0⟩ ⟨2, 0, 0⟩ ⟨0, 2, 0⟩ ≠ 0 ∧
    ((∃ col d, Fragment.new 0 0 col d ∈
        triangle_with_shader sampleOps dv1
          ⟨⟨2, 0, 0⟩, ⟨0, 0, 1⟩, ⟨1, 0⟩, ⟨2, 0, 0⟩, ⟨0, 0, 1⟩⟩
          ⟨⟨0, 2, 0⟩, ⟨0, 0, 1⟩, ⟨0, 1⟩, ⟨0, 2, 0⟩, ⟨0, 0, 1⟩⟩ constShader) ↔
      (0 ≤ edge_function ⟨2, 0, 0⟩ ⟨0, 2, 0⟩ ⟨(0 : ℚ) + 0.5, (0 : ℚ) + 0.5, 0⟩ /
          edge_function ⟨0, 0, 0⟩ ⟨2, 0, 0⟩ ⟨0, 2, 0⟩ ∧
       edge_function ⟨2, 0, 0⟩ ⟨0, 2, 0⟩ ⟨(0 : ℚ) + 0.5, (0 : ℚ) + 0.5, 0⟩ /
          edge_function ⟨0, 0, 0⟩ ⟨2, 0, 0⟩ ⟨0, 2, 0⟩ ≤ 1 ∧
       0 ≤ edge_function ⟨0, 2, 0⟩ ⟨0, 0, 0⟩ ⟨(0 : ℚ) + 0.5, (0 : ℚ) + 0.5, 0⟩ /
          edge_function ⟨0, 0, 0⟩ ⟨2, 0, 0⟩ ⟨0, 2, 0⟩ ∧
       edge_function ⟨0, 2, 0⟩ ⟨0, 0, 0⟩ ⟨(0 : ℚ) + 0.5, (0 : ℚ) + 0.5, 0⟩ /
          edge_function ⟨0, 0, 0⟩ ⟨2, 0, 0⟩ ⟨0, 2, 0⟩ ≤ 1 ∧
       0 ≤ edge_function ⟨0, 0, 0⟩ ⟨2, 0, 0⟩ ⟨(0 : ℚ) + 0.5, (0 : ℚ) + 0.5, 0⟩ /
          edge_function ⟨0, 0, 0⟩ ⟨2, 0, 0⟩ ⟨0, 2, 0⟩ ∧
       edge_function ⟨0, 0, 0⟩ ⟨2, 0, 0⟩ ⟨(0 : ℚ) + 0.5, (0 : ℚ) + 0.5, 0⟩ /
          edge_function ⟨0, 0, 0⟩ ⟨2, 0, 0⟩ ⟨0, 2, 0⟩ ≤ 1)) :=
  ⟨rfl, of_decide_eq_true (by with_unfolding_all rfl),
    c2_fragment_iff_weights_in_unit_interval sampleOps constShader dv1
      ⟨⟨2, 0, 0⟩, ⟨0, 0, 1⟩, ⟨1, 0⟩, ⟨2, 0, 0⟩, ⟨0, 0, 1⟩⟩
      ⟨⟨0, 2, 0⟩, ⟨0, 0, 1⟩, ⟨0, 1⟩, ⟨0, 2, 0⟩, ⟨0, 0, 1⟩⟩
      ⟨0, 0, 0⟩ ⟨2, 0, 0⟩ ⟨0, 2, 0⟩ 0 0 rfl rfl rfl
      (of_decide_eq_true (by with_unfolding_all rfl))
      (of_decide_eq_true (by with_unfolding_all rfl))
      (of_decide_eq_true (by with_unfolding_all rfl))⟩

/-! ## C4: emitted fragments carry barycentric interpolated attributes -/

/-- C4: every fragment `triangle_with_shader` emits at an inside pixel was
built with no perspective correction from the pixel's three barycentric
weights: the shader receives the interpolation of the *original*
(untransformed) vertex positions, the re-normalized interpolation of the
*transformed* normals, and the interpolation of the vertex texture
coordinates; the fragment depth is the interpolation of the transformed
z coordinates. -/
theorem c4_fragment_attributes_are_barycentric_interpolations
    (ops : RealOps) (sh : FragmentShader) (v1 v2 v3 : Vertex) (f : Fragment)
    (hf : f ∈ triangle_with_shader ops v1 v2 v3 sh) :
    ∃ (x y : ℤ) (w1 w2 w3 : ℚ),
      fdiv (edge_function v2.transformed_position v3.transformed_position
          ⟨(x : ℚ) + 0.5, (y : ℚ) + 0.5, 0⟩)
        (edge_function v1.transformed_position v2.transformed_position
          v3.transformed_position) = some w1 ∧
      fdiv (edge_function v3.transformed_position v1.transformed_position
          ⟨(x : ℚ) + 0.5, (y : ℚ) + 0.5, 0⟩)
        (edge_function v1.transformed_position v2.transformed_position
          v3.transformed_position) = some w2 ∧
      fdiv (edge_function v1.transformed_position v2.transformed_position
          ⟨(x : ℚ) + 0.5, (y : ℚ) + 0.5, 0⟩)
        (edge_function v1.transformed_position v2.transformed_position
          v3.transformed_position) = some w3 ∧
      f = Fragment.new (x : ℚ) (y : ℚ)
        (sh v1 v2 v3 (interp_position v1 v2 v3 w1 w2 w3)
          (interp_normal ops v1 v2 v3 w1 w2 w3)
          (interp_tex v1 v2 v3 w1 w2 w3))
        (interp_depth v1.transformed_position v2.transformed_position
          v3.transformed_position w1 w2 w3) := by
  rw [mem_triangle_with_shader_iff] at hf
  obtain ⟨x, y, _, _, hr⟩ := hf
  rw [rasterize_pixel_eq_some_iff] at hr
  obtain ⟨w1, w2, w3, h1, h2, h3, _, heq⟩ := hr
  exact ⟨x, y, w1, w2, w3, h1, h2, h3, heq⟩

theorem c4_fragment_attributes_are_barycentric_interpolations_witness :
    (Fragment.new 0 0 (Color.new 100 100 100) 0 ∈
      triangle_with_shader sampleOps dv1 uv2 uv3 constShader) ∧
    (∃ (x y : ℤ) (w1 w2 w3 : ℚ),
      fdiv (edge_function uv2.transformed_position uv3.transformed_position
          ⟨(x : ℚ) + 0.5, (y : ℚ) + 0.5, 0⟩)
        (edge_function dv1.transformed_position uv2.transformed_position
          uv3.transformed_position) = some w1 ∧
      fdiv (edge_function uv3.transformed_position dv1.transformed_position
          ⟨(x : ℚ) + 0.5, (y : ℚ) + 0.5, 0⟩)
        (edge_function dv1.transformed_position uv2.transformed_position
          uv3.transformed_position) = some w2 ∧
      fdiv (edge_function dv1.transformed_position uv2.transformed_position
          ⟨(x : ℚ) + 0.5, (y : ℚ) + 0.5, 0⟩)
        (edge_function dv1.transformed_position uv2.transformed_position
          uv3.transformed_position) = some w3 ∧
      Fragment.new 0 0 (Color.new 100 100 100) 0 = Fragment.new (x : ℚ) (y : ℚ)
        (constShader dv1 uv2 uv3 (interp_position dv1 uv2 uv3 w1 w2 w3)
          (interp_normal sampleOps dv1 uv2 uv3 w1 w2 w3)
          (interp_tex dv1 uv2 uv3 w1 w2 w3))
        (interp_depth dv1.transformed_position uv2.transformed_position
          uv3.transformed_position w1 w2 w3)) :=
  let h : Fragment.new 0 0 (Color.new 100 100 100) 0 ∈
      triangle_with_shader sampleOps dv1 uv2 uv3 constShader :=
    of_decide_eq_true (by with_unfolding_all rfl)
  ⟨h, c4_fragment_attributes_are_barycentric_interpolations sampleOps
    constShader dv1 uv2 uv3 (Fragment.new 0 0 (Color.new 100 100 100) 0) h⟩

/-! ## C5: end-to-end unit right triangle scenario -/

/-- A constant shader makes the emitted fragment independent of the
interpolated attributes: `rasterize_pixel` then depends only on the
screen-space geometry. -/
theorem rasterize_pixel_const (ops : RealOps) (v1 v2 v3 : Vertex)
    (col : Color) (a b c : Vec3) (A : ℚ) (x y : ℤ) :
    rasterize_pixel ops v1 v2 v3 (fun _ _ _ _ _ _ => col) a b c A x y =
      (match barycentric_coordinates ⟨(x : ℚ) + 0.5, (y : ℚ) + 0.5, 0⟩ a b c A with
       | (some w1, some w2, some w3) =>
         if 0 ≤ w1 ∧ w1 ≤ 1 ∧ 0 ≤ w2 ∧ w2 ≤ 1 ∧ 0 ≤ w3 ∧ w3 ≤ 1 then
           some (Fragment.new (x : ℚ) (y : ℚ) col (interp_depth a b c w1 w2 w3))
         else none
       | (_, _, _) => none) :=
  rfl

set_option maxHeartbeats 1000000 in
/-- C5: rasterizing the right triangle with transformed screen positions
`(0,0,0), (2,0,0), (0,2,0)` under the constant `(100,100,100)` shader
yields exactly the fragments `(0,0)`, `(1,0)`, `(0,1)`, each with color
`(100,100,100)` and depth `0`; and a pixel `(x,y)` gets a fragment
exactly when its center passes the closed-interval inside test for that
triangle (in particular `(1,1)` does not). -/
theorem c5_unit_right_triangle_end_to_end (ops : RealOps) (v1 v2 v3 : Vertex)
    (h1 : v1.transformed_position = ⟨0, 0, 0⟩)
    (h2 : v2.transformed_position = ⟨2, 0, 0⟩)
    (h3 : v3.transformed_position = ⟨0, 2, 0⟩) :
    triangle ops v1 v2 v3 =
      [Fragment.new 0 0 (Color.new 100 100 100) 0,
       Fragment.new 1 0 (Color.new 100 100 100) 0,
       Fragment.new 0 1 (Color.new 100 100 100) 0] ∧
    ∀ x y : ℤ,
      ((∃ col d, Fragment.new (x : ℚ) (y : ℚ) col d ∈ triangle ops v1 v2 v3) ↔
        (0 ≤ edge_function ⟨2, 0, 0⟩ ⟨0, 2, 0⟩ ⟨(x : ℚ) + 0.5, (y : ℚ) + 0.5, 0⟩ /
            edge_function ⟨0, 0, 0⟩ ⟨2, 0, 0⟩ ⟨0, 2, 0⟩ ∧
         edge_function ⟨2, 0, 0⟩ ⟨0, 2, 0⟩ ⟨(x : ℚ) + 0.5, (y : ℚ) + 0.5, 0⟩ /
            edge_function ⟨0, 0, 0⟩ ⟨2, 0, 0⟩ ⟨0, 2, 0⟩ ≤ 1 ∧
         0 ≤ edge_function ⟨0, 2, 0⟩ ⟨0, 0, 0⟩ ⟨(x : ℚ) + 0.5, (y : ℚ) + 0.5, 0⟩ /
            edge_function ⟨0, 0, 0⟩ ⟨2, 0, 0⟩ ⟨0, 2, 0⟩ ∧
         edge_function ⟨0, 2, 0⟩ ⟨0, 0, 0⟩ ⟨(x : ℚ) + 0.5, (y : ℚ) + 0.5, 0⟩ /
            edge_function ⟨0, 0, 0⟩ ⟨2, 0, 0⟩ ⟨0, 2, 0⟩ ≤ 1 ∧
         0 ≤ edge_function ⟨0, 0, 0⟩ ⟨2, 0, 0⟩ ⟨(x : ℚ) + 0.5, (y : ℚ) + 0.5, 0⟩ /
            edge_function ⟨0, 0, 0⟩ ⟨2, 0, 0⟩ ⟨0, 2, 0⟩ ∧
         edge_function ⟨0, 0, 0⟩ ⟨2, 0, 0⟩ ⟨(x : ℚ) + 0.5, (y : ℚ) + 0.5, 0⟩ /
            edge_function ⟨0, 0, 0⟩ ⟨2, 0, 0⟩ ⟨0, 2, 0⟩ ≤ 1)) := by
  obtain ⟨p1, n1, t1, tp1, tn1⟩ := v1
  obtain ⟨p2, n2, t2, tp2, tn2⟩ := v2
  obtain ⟨p3, n3, t3, tp3, tn3⟩ := v3
  replace h1 : tp1 = (⟨0, 0, 0⟩ : Vec3) := h1
  replace h2 : tp2 = (⟨2, 0, 0⟩ : Vec3) := h2
  replace h3 : tp3 = (⟨0, 2, 0⟩ : Vec3) := h3
  subst h1
  subst h2
  subst h3
  have hlist : triangle ops ⟨p1, n1, t1, ⟨0, 0, 0⟩, tn1⟩
      ⟨p2, n2, t2, ⟨2, 0, 0⟩, tn2⟩ ⟨p3, n3, t3, ⟨0, 2, 0⟩, tn3⟩ =
      [Fragment.new 0 0 (Color.new 100 100 100) 0,
       Fragment.new 1 0 (Color.new 100 100 100) 0,
       Fragment.new 0 1 (Color.new 100 100 100) 0] := by
    unfold triangle triangle_with_shader
    simp only [rasterize_pixel_const]
    with_unfolding_all rfl
  refine ⟨hlist, fun x y => ?_⟩
  have e1val : ∀ X Y : ℚ,
      edge_function ⟨2, 0, 0⟩ ⟨0, 2, 0⟩ ⟨X, Y, 0⟩ = 2 * X + 2 * Y - 4 := by
    intro X Y
    simp only [edge_function]
    ring
  have e2val : ∀ X Y : ℚ,
      edge_function ⟨0, 2, 0⟩ ⟨0, 0, 0⟩ ⟨X, Y, 0⟩ = -2 * X := by
    intro X Y
    simp only [edge_function]
    ring
  have e3val : ∀ X Y : ℚ,
      edge_function ⟨0, 0, 0⟩ ⟨2, 0, 0⟩ ⟨X, Y, 0⟩ = -2 * Y := by
    intro X Y
    simp only [edge_function]
    ring
  have aval : edge_function ⟨0, 0, 0⟩ ⟨2, 0, 0⟩ ⟨0, 2, 0⟩ = (-4 : ℚ) := by
    simp only [edge_function]
    ring
  constructor
  · rintro ⟨col, d, hmem⟩
    rw [hlist] at hmem
    simp only [List.mem_cons, List.not_mem_nil, or_false, Fragment.new,
      Fragment.mk.injEq] at hmem
    rw [aval, e1val, e2val, e3val]
    rcases hmem with ⟨hx, hy, _, _⟩ | ⟨hx, hy, _, _⟩ | ⟨hx, hy, _, _⟩ <;>
      rw [hx, hy] <;> norm_num
  · intro hw
    rw [aval, e1val, e2val, e3val] at hw
    obtain ⟨h1a, _, h2a, h2b, h3a, h3b⟩ := hw
    have hx0 : 0 ≤ x := by
      by_contra hc
      push_neg at hc
      have : (x : ℚ) ≤ -1 := by exact_mod_cast (by omega : x ≤ -1)
      linarith
    have hx1 : x ≤ 1 := by
      by_contra hc
      push_neg at hc
      have : (2 : ℚ) ≤ (x : ℚ) := by exact_mod_cast (by omega : (2 : ℤ) ≤ x)
      linarith
    have hy0 : 0 ≤ y := by
      by_contra hc
      push_neg at hc
      have : (y : ℚ) ≤ -1 := by exact_mod_cast (by omega : y ≤ -1)
      linarith
    have hy1 : y ≤ 1 := by
      by_contra hc
      push_neg at hc
      have : (2 : ℚ) ≤ (y : ℚ) := by exact_mod_cast (by omega : (2 : ℤ) ≤ y)
      linarith
    have hsum : x + y ≤ 1 := by
      by_contra hc
      push_neg at hc
      have : (2 : ℚ) ≤ (x : ℚ) + (y : ℚ) := by
        exact_mod_cast (by omega : (2 : ℤ) ≤ x + y)
      linarith
    have hcases : (x = 0 ∧ y = 0) ∨ (x = 1 ∧ y = 0) ∨ (x = 0 ∧ y = 1) := by
      omega
    rcases hcases with ⟨rfl, rfl⟩ | ⟨rfl, rfl⟩ | ⟨rfl, rfl⟩ <;>
      exact ⟨Color.new 100 100 100, 0, by
        rw [hlist]
        simp [Fragment.new, Fragment.mk.injEq]⟩

theorem c5_unit_right_triangle_end_to_end_witness :
    dv1.transformed_position = (⟨0, 0, 0⟩ : Vec3) ∧
    uv2.transformed_position = (⟨2, 0, 0⟩ : Vec3) ∧
    uv3.transformed_position = (⟨0, 2, 0⟩ : Vec3) ∧
    (triangle sampleOps dv1 uv2 uv3 =
      [Fragment.new 0 0 (Color.new 100 100 100) 0,
       Fragment.new 1 0 (Color.new 100 100 100) 0,
       Fragment.new 0 1 (Color.new 100 100 100) 0] ∧
    ∀ x y : ℤ,
      ((∃ col d, Fragment.new (x : ℚ) (y : ℚ) col d ∈
          triangle sampleOps dv1 uv2 uv3) ↔
        (0 ≤ edge_function ⟨2, 0, 0⟩ ⟨0, 2, 0⟩ ⟨(x : ℚ) + 0.5, (y : ℚ) + 0.5, 0⟩ /
            edge_function ⟨0, 0, 0⟩ ⟨2, 0, 0⟩ ⟨0, 2, 0⟩ ∧
         edge_function ⟨2, 0, 0⟩ ⟨0, 2, 0⟩ ⟨(x : ℚ) + 0.5, (y : ℚ) + 0.5, 0⟩ /
            edge_function ⟨0, 0, 0⟩ ⟨2, 0, 0⟩ ⟨0, 2, 0⟩ ≤ 1 ∧
         0 ≤ edge_function ⟨0, 2, 0⟩ ⟨0, 0, 0⟩ ⟨(x : ℚ) + 0.5, (y : ℚ) + 0.5, 0⟩ /
            edge_function ⟨0, 0, 0⟩ ⟨2, 0, 0⟩ ⟨0, 2, 0⟩ ∧
         edge_function ⟨0, 2, 0⟩ ⟨0, 0, 0⟩ ⟨(x : ℚ) + 0.5, (y : ℚ) + 0.5, 0⟩ /
            edge_function ⟨0, 0, 0⟩ ⟨2, 0, 0⟩ ⟨0, 2, 0⟩ ≤ 1 ∧
         0 ≤ edge_function ⟨0, 0, 0⟩ ⟨2, 0, 0⟩ ⟨(x : ℚ) + 0.5, (y : ℚ) + 0.5, 0⟩ /
            edge_function ⟨0, 0, 0⟩ ⟨2, 0, 0⟩ ⟨0, 2, 0⟩ ∧
         edge_function ⟨0, 0, 0⟩ ⟨2, 0, 0⟩ ⟨(x : ℚ) + 0.5, (y : ℚ) + 0.5, 0⟩ /
            edge_function ⟨0, 0, 0⟩ ⟨2, 0, 0⟩ ⟨0, 2, 0⟩ ≤ 1))) :=
  ⟨rfl, rfl, rfl,
   c5_unit_right_triangle_end_to_end sampleOps dv1 uv2 uv3 rfl rfl rfl⟩

/-! ## C3: barycentric partition of unity and inside/outside tests -/

theorem edge_sum (a b c p : Vec3) :
    edge_function b c p + edge_function c a p + edge_function a b p =
      edge_function a b c := by
  simp only [edge_function]
  ring

theorem edge_recon_x (a b c p : Vec3) :
    edge_function b c p * a.x + edge_function c a p * b.x
      + edge_function a b p * c.x = edge_function a b c * p.x := by
  simp only [edge_function]
  ring

theorem edge_recon_y (a b c p : Vec3) :
    edge_function b c p * a.y + edge_function c a p * b.y
      + edge_function a b p * c.y = edge_function a b c * p.y := by
  simp only [edge_function]
  ring

theorem edge_affine_w1 (a b c p : Vec3) (l1 l2 l3 : ℚ)
    (hs : l1 + l2 + l3 = 1) (hx : p.x = l1 * a.x + l2 * b.x + l3 * c.x)
    (hy : p.y = l1 * a.y + l2 * b.y + l3 * c.y) :
    edge_function b c p = l1 * edge_function a b c := by
  have h3 : l3 = 1 - l1 - l2 := by linarith
  subst h3
  simp only [edge_function]
  rw [hx, hy]
  ring

theorem edge_affine_w2 (a b c p : Vec3) (l1 l2 l3 : ℚ)
    (hs : l1 + l2 + l3 = 1) (hx : p.x = l1 * a.x + l2 * b.x + l3 * c.x)
    (hy : p.y = l1 * a.y + l2 * b.y + l3 * c.y) :
    edge_function c a p = l2 * edge_function a b c := by
  have h3 : l3 = 1 - l1 - l2 := by linarith
  subst h3
  simp only [edge_function]
  rw [hx, hy]
  ring

theorem edge_affine_w3 (a b c p : Vec3) (l1 l2 l3 : ℚ)
    (hs : l1 + l2 + l3 = 1) (hx : p.x = l1 * a.x + l2 * b.x + l3 * c.x)
    (hy : p.y = l1 * a.y + l2 * b.y + l3 * c.y) :
    edge_function a b p = l3 * edge_function a b c := by
  have h3 : l3 = 1 - l1 - l2 := by linarith
  subst h3
  simp only [edge_function]
  rw [hx, hy]
  ring

/-- C3: for a triangle of nonzero signed area, `barycentric_coordinates`
returns the three finite edge-function ratios; they sum exactly to 1 in
exact arithmetic; for a sample point in the closed triangle all three
lie in `[0,1]`, and for a point strictly outside the triangle at least
one falls outside `[0,1]`. -/
theorem c3_barycentric_partition_of_unity (a b c p : Vec3)
    (hA : edge_function a b c ≠ 0) :
    barycentric_coordinates p a b c (edge_function a b c) =
      (some (edge_function b c p / edge_function a b c),
       some (edge_function c a p / edge_function a b c),
       some (edge_function a b p / edge_function a b c)) ∧
    edge_function b c p / edge_function a b c
      + edge_function c a p / edge_function a b c
      + edge_function a b p / edge_function a b c = 1 ∧
    (inTriangle p a b c →
      (0 ≤ edge_function b c p / edge_function a b c ∧
       edge_function b c p / edge_function a b c ≤ 1 ∧
       0 ≤ edge_function c a p / edge_function a b c ∧
       edge_function c a p / edge_function a b c ≤ 1 ∧
       0 ≤ edge_function a b p / edge_function a b c ∧
       edge_function a b p / edge_function a b c ≤ 1)) ∧
    (¬ inTriangle p a b c →
      (edge_function b c p / edge_function a b c < 0 ∨
       1 < edge_function b c p / edge_function a b c ∨
       edge_function c a p / edge_function a b c < 0 ∨
       1 < edge_function c a p / edge_function a b c ∨
       edge_function a b p / edge_function a b c < 0 ∨
       1 < edge_function a b p / edge_function a b c)) := by
  have hsum : edge_function b c p / edge_function a b c
      + edge_function c a p / edge_function a b c
      + edge_function a b p / edge_function a b c = 1 := by
    rw [div_add_div_same, div_add_div_same, edge_sum, div_self hA]
  refine ⟨by simp [barycentric_coordinates, fdiv, hA], hsum, ?_, ?_⟩
  · rintro ⟨l1, l2, l3, hl1, hl2, hl3, hs, hx, hy⟩
    have q1 : edge_function b c p / edge_function a b c = l1 := by
      rw [edge_affine_w1 a b c p l1 l2 l3 hs hx hy]
      field_simp
    have q2 : edge_function c a p / edge_function a b c = l2 := by
      rw [edge_affine_w2 a b c p l1 l2 l3 hs hx hy]
      field_simp
    have q3 : edge_function a b p / edge_function a b c = l3 := by
      rw [edge_affine_w3 a b c p l1 l2 l3 hs hx hy]
      field_simp
    rw [q1, q2, q3]
    exact ⟨hl1, by linarith, hl2, by linarith, hl3, by linarith⟩
  · intro hnot
    by_contra hcon
    push_neg at hcon
    obtain ⟨k1, k2, k3, k4, k5, k6⟩ := hcon
    refine hnot ⟨edge_function b c p / edge_function a b c,
      edge_function c a p / edge_function a b c,
      edge_function a b p / edge_function a b c,
      k1, k3, k5, hsum, ?_, ?_⟩
    · field_simp
      linear_combination (-1 : ℚ) * edge_recon_x a b c p
    · field_simp
      linear_combination (-1 : ℚ) * edge_recon_y a b c p

theorem c3_barycentric_partition_of_unity_witness :
    edge_function (⟨0, 0, 0⟩ : Vec3) ⟨1, 0, 0⟩ ⟨0, 1, 0⟩ ≠ 0 ∧
    edge_function ⟨1, 0, 0⟩ ⟨0, 1, 0⟩ ⟨0.25, 0.25, 0⟩ /
        edge_function ⟨0, 0, 0⟩ ⟨1, 0, 0⟩ ⟨0, 1, 0⟩
      + edge_function ⟨0, 1, 0⟩ ⟨0, 0, 0⟩ ⟨0.25, 0.25, 0⟩ /
        edge_function ⟨0, 0, 0⟩ ⟨1, 0, 0⟩ ⟨0, 1, 0⟩
      + edge_function ⟨0, 0, 0⟩ ⟨1, 0, 0⟩ ⟨0.25, 0.25, 0⟩ /
        edge_function ⟨0, 0, 0⟩ ⟨1, 0, 0⟩ ⟨0, 1, 0⟩ = 1 ∧
    (0 ≤ edge_function ⟨1, 0, 0⟩ ⟨0, 1, 0⟩ ⟨0.25, 0.25, 0⟩ /
        edge_function ⟨0, 0, 0⟩ ⟨1, 0, 0⟩ ⟨0, 1, 0⟩ ∧
     edge_function ⟨1, 0, 0⟩ ⟨0, 1, 0⟩ ⟨0.25, 0.25, 0⟩ /
        edge_function ⟨0, 0, 0⟩ ⟨1, 0, 0⟩ ⟨0, 1, 0⟩ ≤ 1 ∧
     0 ≤ edge_function ⟨0, 1, 0⟩ ⟨0, 0, 0⟩ ⟨0.25, 0.25, 0⟩ /
        edge_function ⟨0, 0, 0⟩ ⟨1, 0, 0⟩ ⟨0, 1, 0⟩ ∧
     edge_function ⟨0, 1, 0⟩ ⟨0, 0, 0⟩ ⟨0.25, 0.25, 0⟩ /
        edge_function ⟨0, 0, 0⟩ ⟨1, 0, 0⟩ ⟨0, 1, 0⟩ ≤ 1 ∧
     0 ≤ edge_function ⟨0, 0, 0⟩ ⟨1, 0, 0⟩ ⟨0.25, 0.25, 0⟩ /
        edge_function ⟨0, 0, 0⟩ ⟨1, 0, 0⟩ ⟨0, 1, 0⟩ ∧
     edge_function ⟨0, 0, 0⟩ ⟨1, 0, 0⟩ ⟨0.25, 0.25, 0⟩ /
        edge_function ⟨0, 0, 0⟩ ⟨1, 0, 0⟩ ⟨0, 1, 0⟩ ≤ 1) ∧
    (edge_function ⟨1, 0, 0⟩ ⟨0, 1, 0⟩ ⟨2, 2, 0⟩ /
        edge_function ⟨0, 0, 0⟩ ⟨1, 0, 0⟩ ⟨0, 1, 0⟩ < 0 ∨
     1 < edge_function ⟨1, 0, 0⟩ ⟨0, 1, 0⟩ ⟨2, 2, 0⟩ /
        edge_function ⟨0, 0, 0⟩ ⟨1, 0, 0⟩ ⟨0, 1, 0⟩ ∨
     edge_function ⟨0, 1, 0⟩ ⟨0, 0, 0⟩ ⟨2, 2, 0⟩ /
        edge_function ⟨0, 0, 0⟩ ⟨1, 0, 0⟩ ⟨0, 1, 0⟩ < 0 ∨
     1 < edge_function ⟨0, 1, 0⟩ ⟨0, 0, 0⟩ ⟨2, 2, 0⟩ /
        edge_function ⟨0, 0, 0⟩ ⟨1, 0, 0⟩ ⟨0, 1, 0⟩ ∨
     edge_function ⟨0, 0, 0⟩ ⟨1, 0, 0⟩ ⟨2, 2, 0⟩ /
        edge_function ⟨0, 0, 0⟩ ⟨1, 0, 0⟩ ⟨0, 1, 0⟩ < 0 ∨
     1 < edge_function ⟨0, 0, 0⟩ ⟨1, 0, 0⟩ ⟨2, 2, 0⟩ /
        edge_function ⟨0, 0, 0⟩ ⟨1, 0, 0⟩ ⟨0, 1, 0⟩) := by
  have hA : edge_function (⟨0, 0, 0⟩ : Vec3) ⟨1, 0, 0⟩ ⟨0, 1, 0⟩ ≠ 0 := by
    norm_num [edge_function]
  have h_in := c3_barycentric_partition_of_unity ⟨0, 0, 0⟩ ⟨1, 0, 0⟩ ⟨0, 1, 0⟩
    ⟨0.25, 0.25, 0⟩ hA
  have h_out := c3_barycentric_partition_of_unity ⟨0, 0, 0⟩ ⟨1, 0, 0⟩ ⟨0, 1, 0⟩
    ⟨2, 2, 0⟩ hA
  refine ⟨hA, h_in.2.1, h_in.2.2.1 ⟨0.5, 0.25, 0.25, by norm_num, by norm_num,
    by norm_num, by norm_num, by norm_num, by norm_num⟩, h_out.2.2.2 ?_⟩
  rintro ⟨l1, l2, l3, hl1, hl2, hl3, hs, hx, hy⟩
  norm_num at hx hy
  linarith

/-! ## Noise bounds and the fbm octave sum -/

theorem hash_mem (ops : RealOps) (n : ℚ) : 0 ≤ hash ops n ∧ hash ops n < 1 := by
  have : hash ops n = Int.fract (ops.rsin (n * 12.9898) * 43758.5453) := rfl
  rw [this]
  exact ⟨Int.fract_nonneg _, Int.fract_lt_one _⟩

theorem hash_vec3_mem (ops : RealOps) (v : Vec3) :
    0 ≤ hash_vec3 ops v ∧ hash_vec3 ops v < 1 :=
  hash_mem ops _

theorem rclamp_mem {x lo hi : ℚ} (h : lo ≤ hi) :
    lo ≤ rclamp x lo hi ∧ rclamp x lo hi ≤ hi :=
  ⟨le_min (le_max_right x lo) h, min_le_right _ hi⟩

theorem smoothstep_bounds (edge0 edge1 x : ℚ) :
    0 ≤ smoothstep edge0 edge1 x ∧ smoothstep edge0 edge1 x ≤ 1 := by
  have he : smoothstep edge0 edge1 x =
      rclamp ((x - edge0) / (edge1 - edge0)) 0 1 *
        rclamp ((x - edge0) / (edge1 - edge0)) 0 1 *
        (3 - 2 * rclamp ((x - edge0) / (edge1 - edge0)) 0 1) := rfl
  obtain ⟨h0, h1⟩ := rclamp_mem
    (x := (x - edge0) / (edge1 - edge0)) (by norm_num : (0 : ℚ) ≤ 1)
  rw [he]
  set t := rclamp ((x - edge0) / (edge1 - edge0)) 0 1
  constructor
  · nlinarith
  · nlinarith [sq_nonneg (1 - t)]

theorem lerp_mem {a b u : ℚ} (ha0 : 0 ≤ a) (ha1 : a < 1) (hb0 : 0 ≤ b)
    (hb1 : b < 1) (hu0 : 0 ≤ u) (hu1 : u ≤ 1) :
    0 ≤ a + (b - a) * u ∧ a + (b - a) * u < 1 := by
  constructor
  · nlinarith
  · rcases eq_or_lt_of_le hu1 with h | h
    · rw [← h]
      nlinarith
    · nlinarith [mul_pos (by linarith : (0 : ℚ) < 1 - a)
        (by linarith : (0 : ℚ) < 1 - u),
        mul_nonneg (by linarith : (0 : ℚ) ≤ 1 - b) hu0]

theorem noise_mem (ops : RealOps) (p : Vec3) :
    0 ≤ noise ops p ∧ noise ops p < 1 := by
  have Hm := hash_vec3_mem ops
  have Sm := smoothstep_bounds
  unfold noise
  exact lerp_mem
    (lerp_mem
      (lerp_mem (Hm _).1 (Hm _).2 (Hm _).1 (Hm _).2 (Sm _ _ _).1 (Sm _ _ _).2).1
      (lerp_mem (Hm _).1 (Hm _).2 (Hm _).1 (Hm _).2 (Sm _ _ _).1 (Sm _ _ _).2).2
      (lerp_mem (Hm _).1 (Hm _).2 (Hm _).1 (Hm _).2 (Sm _ _ _).1 (Sm _ _ _).2).1
      (lerp_mem (Hm _).1 (Hm _).2 (Hm _).1 (Hm _).2 (Sm _ _ _).1 (Sm _ _ _).2).2
      (Sm _ _ _).1 (Sm _ _ _).2).1
    (lerp_mem
      (lerp_mem (Hm _).1 (Hm _).2 (Hm _).1 (Hm _).2 (Sm _ _ _).1 (Sm _ _ _).2).1
      (lerp_mem (Hm _).1 (Hm _).2 (Hm _).1 (Hm _).2 (Sm _ _ _).1 (Sm _ _ _).2).2
      (lerp_mem (Hm _).1 (Hm _).2 (Hm _).1 (Hm _).2 (Sm _ _ _).1 (Sm _ _ _).2).1
      (lerp_mem (Hm _).1 (Hm _).2 (Hm _).1 (Hm _).2 (Sm _ _ _).1 (Sm _ _ _).2).2
      (Sm _ _ _).1 (Sm _ _ _).2).2
    (lerp_mem
      (lerp_mem (Hm _).1 (Hm _).2 (Hm _).1 (Hm _).2 (Sm _ _ _).1 (Sm _ _ _).2).1
      (lerp_mem (Hm _).1 (Hm _).2 (Hm _).1 (Hm _).2 (Sm _ _ _).1 (Sm _ _ _).2).2
      (lerp_mem (Hm _).1 (Hm _).2 (Hm _).1 (Hm _).2 (Sm _ _ _).1 (Sm _ _ _).2).1
      (lerp_mem (Hm _).1 (Hm _).2 (Hm _).1 (Hm _).2 (Sm _ _ _).1 (Sm _ _ _).2).2
      (Sm _ _ _).1 (Sm _ _ _).2).1
    (lerp_mem
      (lerp_mem (Hm _).1 (Hm _).2 (Hm _).1 (Hm _).2 (Sm _ _ _).1 (Sm _ _ _).2).1
      (lerp_mem (Hm _).1 (Hm _).2 (Hm _).1 (Hm _).2 (Sm _ _ _).1 (Sm _ _ _).2).2
      (lerp_mem (Hm _).1 (Hm _).2 (Hm _).1 (Hm _).2 (Sm _ _ _).1 (Sm _ _ _).2).1
      (lerp_mem (Hm _).1 (Hm _).2 (Hm _).1 (Hm _).2 (Sm _ _ _).1 (Sm _ _ _).2).2
      (Sm _ _ _).1 (Sm _ _ _).2).2
    (Sm _ _ _).1 (Sm _ _ _).2

theorem fbmAux_eq (ops : RealOps) (p : Vec3) :
    ∀ (octaves : ℕ) (value amplitude frequency : ℚ),
      fbmAux ops p value amplitude frequency octaves =
        value + ∑ i ∈ Finset.range octaves,
          amplitude * (1 / 2) ^ i *
            noise ops ⟨p.x * (frequency * 2 ^ i), p.y * (frequency * 2 ^ i),
              p.z * (frequency * 2 ^ i)⟩ := by
  intro octaves
  induction octaves with
  | zero =>
    intro value amplitude frequency
    simp [fbmAux]
  | succ k ih =>
    intro value amplitude frequency
    rw [show fbmAux ops p value amplitude frequency (k + 1) =
      fbmAux ops p
        (value + amplitude * noise ops
          ⟨p.x * frequency, p.y * frequency, p.z * frequency⟩)
        (amplitude * 0.5) (frequency * 2) k from rfl]
    rw [ih]
    rw [Finset.sum_range_succ']
    have harg : ∀ i : ℕ,
        (⟨p.x * (frequency * 2 * 2 ^ i), p.y * (frequency * 2 * 2 ^ i),
          p.z * (frequency * 2 * 2 ^ i)⟩ : Vec3) =
        ⟨p.x * (frequency * 2 ^ (i + 1)), p.y * (frequency * 2 ^ (i + 1)),
          p.z * (frequency * 2 ^ (i + 1))⟩ := by
      intro i
      rw [Vec3.mk.injEq]
      refine ⟨?_, ?_, ?_⟩ <;> · rw [pow_succ]; ring
    have hsum : ∑ i ∈ Finset.range k,
        amplitude * 0.5 * (1 / 2) ^ i *
          noise ops ⟨p.x * (frequency * 2 * 2 ^ i), p.y * (frequency * 2 * 2 ^ i),
            p.z * (frequency * 2 * 2 ^ i)⟩ =
        ∑ i ∈ Finset.range k,
          amplitude * (1 / 2) ^ (i + 1) *
            noise ops ⟨p.x * (frequency * 2 ^ (i + 1)), p.y * (frequency * 2 ^ (i + 1)),
              p.z * (frequency * 2 ^ (i + 1))⟩ := by
      refine Finset.sum_congr rfl fun i _ => ?_
      rw [harg i]
      have hco : amplitude * 0.5 * (1 / 2 : ℚ) ^ i = amplitude * (1 / 2) ^ (i + 1) := by
        rw [pow_succ]
        ring_nf
      rw [hco]
    rw [hsum]
    have h0 : (⟨p.x * (frequency * 2 ^ (0 : ℕ)), p.y * (frequency * 2 ^ (0 : ℕ)),
        p.z * (frequency * 2 ^ (0 : ℕ))⟩ : Vec3) =
        ⟨p.x * frequency, p.y * frequency, p.z * frequency⟩ := by
      rw [Vec3.mk.injEq]
      norm_num
    rw [h0, pow_zero, mul_one]
    ring

theorem halfpow_sum (k : ℕ) :
    (∑ i ∈ Finset.range k, (0.5 : ℚ) * (1 / 2) ^ i) = 1 - (1 / 2) ^ k := by
  induction k with
  | zero => simp
  | succ n ih =>
    rw [Finset.sum_range_succ, ih, pow_succ]
    ring_nf

theorem fbm_nonneg (ops : RealOps) (p : Vec3) (k : ℕ) : 0 ≤ fbm ops p k := by
  unfold fbm
  rw [fbmAux_eq]
  refine le_trans (by norm_num) (le_add_of_nonneg_right (Finset.sum_nonneg ?_))
  intro i _
  exact mul_nonneg (mul_nonneg (by norm_num) (by positivity)) (noise_mem ops _).1

theorem fbm_le_one (ops : RealOps) (p : Vec3) (k : ℕ) : fbm ops p k ≤ 1 := by
  unfold fbm
  rw [fbmAux_eq]
  rw [zero_add]
  calc ∑ i ∈ Finset.range k, (0.5 : ℚ) * (1 / 2) ^ i *
        noise ops ⟨p.x * (1 * 2 ^ i), p.y * (1 * 2 ^ i), p.z * (1 * 2 ^ i)⟩
      ≤ ∑ i ∈ Finset.range k, (0.5 : ℚ) * (1 / 2) ^ i := by
        refine Finset.sum_le_sum fun i _ => ?_
        exact mul_le_of_le_one_right (by positivity) (le_of_lt (noise_mem ops _).2)
    _ = 1 - (1 / 2) ^ k := halfpow_sum k
    _ ≤ 1 := by
        have : (0 : ℚ) ≤ (1 / 2) ^ k := by positivity
        linarith

/-! ## C6: fbm is the explicit octave sum, unclamped -/

/-- C6: for every point and octave count, `fbm` equals the plain sum over
the octaves `i < k` of `0.5 * (1/2)^i * noise(2^i * p)` — noise sampled
at successive frequency doublings from frequency 1 with amplitude halving
from 0.5 — with no clamping applied to the result. -/
theorem c6_fbm_octave_sum (ops : RealOps) (p : Vec3) (k : ℕ) :
    fbm ops p k = ∑ i ∈ Finset.range k,
      (0.5 : ℚ) * (1 / 2) ^ i *
        noise ops ⟨p.x * 2 ^ i, p.y * 2 ^ i, p.z * 2 ^ i⟩ := by
  unfold fbm
  rw [fbmAux_eq, zero_add]
  refine Finset.sum_congr rfl fun i _ => ?_
  rw [one_mul]

/-! ## C10: moon shader gray invariants -/

/-- Diffuse intensity against the fixed light `(0,0,-1)` lies in `[0,1]`
for a unit-length normal. -/
theorem diffuse_intensity_unit_z (n : Vec3) (hn : Vec3.normSq n = 1) :
    0 ≤ diffuse_intensity n ⟨0, 0, -1⟩ ∧ diffuse_intensity n ⟨0, 0, -1⟩ ≤ 1 := by
  have hd : Vec3.dot n ⟨0, 0, -1⟩ = -n.z := by
    simp [Vec3.dot]
  unfold diffuse_intensity
  rw [hd]
  unfold Vec3.normSq at hn
  constructor
  · exact le_max_right _ _
  · rw [max_le_iff]
    refine ⟨?_, by norm_num⟩
    nlinarith [sq_nonneg n.x, sq_nonneg n.y, sq_nonneg (n.z + 1)]

/-- C10: `moon_shader` is achromatic — the three channel values passed to
`Color::from_float` coincide; its pre-lighting gray is clamped into
`[0.2, 0.8]`; and with a unit-length normal every channel lies in
`[0.02, 0.8]`. -/
theorem c10_moon_shader_achromatic_and_bounded (ops : RealOps)
    (v1 v2 v3 : Vertex) (position normal : Vec3) (tex_coords : Vec2) :
    ((moon_channels ops v1 v2 v3 position normal tex_coords).1 =
       (moon_channels ops v1 v2 v3 position normal tex_coords).2.1 ∧
     (moon_channels ops v1 v2 v3 position normal tex_coords).2.1 =
       (moon_channels ops v1 v2 v3 position normal tex_coords).2.2) ∧
    (0.2 ≤ moon_gray ops position ∧ moon_gray ops position ≤ 0.8) ∧
    (Vec3.normSq normal = 1 →
      0.02 ≤ (moon_channels ops v1 v2 v3 position normal tex_coords).1 ∧
      (moon_channels ops v1 v2 v3 position normal tex_coords).1 ≤ 0.8) := by
  have hgray : 0.2 ≤ moon_gray ops position ∧ moon_gray ops position ≤ 0.8 := by
    unfold moon_gray
    exact rclamp_mem (by norm_num)
  refine ⟨⟨rfl, rfl⟩, hgray, ?_⟩
  intro hn
  have hch : (moon_channels ops v1 v2 v3 position normal tex_coords).1 =
      moon_gray ops position *
        (diffuse_intensity normal moon_light_dir * 0.9 + 0.1) := rfl
  have hI : 0 ≤ diffuse_intensity normal moon_light_dir ∧
      diffuse_intensity normal moon_light_dir ≤ 1 :=
    diffuse_intensity_unit_z normal hn
  obtain ⟨hg0, hg1⟩ := hgray
  obtain ⟨hi0, hi1⟩ := hI
  rw [hch]
  constructor
  · nlinarith [mul_nonneg (by linarith : (0 : ℚ) ≤ moon_gray ops position - 0.2)
      (by linarith : (0 : ℚ) ≤ diffuse_intensity normal moon_light_dir * 0.9 + 0.1 - 0.1)]
  · nlinarith [mul_nonneg (by linarith : (0 : ℚ) ≤ 0.8 - moon_gray ops position)
      (by linarith : (0 : ℚ) ≤ 1 - (diffuse_intensity normal moon_light_dir * 0.9 + 0.1))]

theorem c10_moon_shader_achromatic_and_bounded_witness :
    (((moon_channels sampleOps v0 v0 v0 ⟨0, 0, 0⟩ ⟨0, 0, 1⟩ ⟨0, 0⟩).1 =
        (moon_channels sampleOps v0 v0 v0 ⟨0, 0, 0⟩ ⟨0, 0, 1⟩ ⟨0, 0⟩).2.1 ∧
      (moon_channels sampleOps v0 v0 v0 ⟨0, 0, 0⟩ ⟨0, 0, 1⟩ ⟨0, 0⟩).2.1 =
        (moon_channels sampleOps v0 v0 v0 ⟨0, 0, 0⟩ ⟨0, 0, 1⟩ ⟨0, 0⟩).2.2) ∧
     (0.2 ≤ moon_gray sampleOps ⟨0, 0, 0⟩ ∧
      moon_gray sampleOps ⟨0, 0, 0⟩ ≤ 0.8)) ∧
    (0.02 ≤ (moon_channels sampleOps v0 v0 v0 ⟨0, 0, 0⟩ ⟨0, 0, 1⟩ ⟨0, 0⟩).1 ∧
     (moon_channels sampleOps v0 v0 v0 ⟨0, 0, 0⟩ ⟨0, 0, 1⟩ ⟨0, 0⟩).1 ≤ 0.8) :=
  have h := c10_moon_shader_achromatic_and_bounded sampleOps v0 v0 v0
    ⟨0, 0, 0⟩ ⟨0, 0, 1⟩ ⟨0, 0⟩
  ⟨⟨h.1, h.2.1⟩, h.2.2 (of_decide_eq_true (by with_unfolding_all rfl))⟩

/-! ## C7: channel values passed to from_float -/

/-- A value in `[0,1]` times a lighting factor `intensity * m + a` with
`0 ≤ intensity ≤ 1`, `0 ≤ m`, `0 ≤ a`, `m + a ≤ 1` stays in `[0,1]`. -/
theorem mul_factor_in_unit {v intensity m a : ℚ} (hv : 0 ≤ v ∧ v ≤ 1)
    (hI : 0 ≤ intensity ∧ intensity ≤ 1) (hm : 0 ≤ m) (ha : 0 ≤ a)
    (hma : m + a ≤ 1) :
    0 ≤ v * (intensity * m + a) ∧ v * (intensity * m + a) ≤ 1 := by
  have hlf0 : 0 ≤ intensity * m + a := by nlinarith [hI.1]
  have hlf1 : intensity * m + a ≤ 1 := by nlinarith [hI.2]
  exact ⟨mul_nonneg hv.1 hlf0, mul_le_one₀ hv.2 hlf0 hlf1⟩

/-- A triple of channels each clamped to `[0,1]` lies in the unit cube. -/
theorem clamped_in_unit {a b c : ℚ} :
    channels_in_unit (rclamp a 0 1, rclamp b 0 1, rclamp c 0 1) :=
  ⟨(rclamp_mem (by norm_num)).1, (rclamp_mem (by norm_num)).2,
   (rclamp_mem (by norm_num)).1, (rclamp_mem (by norm_num)).2,
   (rclamp_mem (by norm_num)).1, (rclamp_mem (by norm_num)).2⟩

/-- The pre-lighting rocky-planet color triple lies in the unit cube, for
every interpretation of the transcendental operations. -/
theorem rocky_rgb_in_unit (ops : RealOps) (position : Vec3) :
    channels_in_unit (rocky_rgb ops position) := by
  have h3 : ∀ q : Vec3, 0 ≤ fbm ops q 3 ∧ fbm ops q 3 ≤ 1 := fun q =>
    ⟨fbm_nonneg ops q 3, fbm_le_one ops q 3⟩
  obtain ⟨he0, he1⟩ := h3 ⟨position.x * 4, position.y * 4, position.z * 4⟩
  obtain ⟨ho0, ho1⟩ := h3 ⟨position.x * 3, position.y * 3, position.z * 3⟩
  simp only [rocky_rgb, channels_in_unit]
  split_ifs <;> refine ⟨?_, ?_, ?_, ?_, ?_, ?_⟩ <;> norm_num <;>
    nlinarith [he0, he1, ho0, ho1]

/-- C7 as stated is refuted: `star_shader` does not clamp after applying
its lighting factor, so with the (non-unit) interpolation-free normal
`(0,0,-2)` the red channel it passes to `Color::from_float` is `1.7`. -/
theorem c7_counterexample_star_channel_exceeds_one :
    1 < (star_channels sampleOps v0 v0 v0 ⟨0, 0, 0⟩ ⟨0, 0, -2⟩ ⟨0, 0⟩).1 :=
  of_decide_eq_true (by with_unfolding_all rfl)

/-- C7 amended: for every shader of the library and every input whose
normal is unit-length, each floating-point channel value passed to
`Color::from_float` lies in `[0, 1]` (azure, crimson, gas-giant, ring and
ship clamp their final channels unconditionally; star, rocky-planet and
moon scale an in-range color by a lighting factor that the unit-length
normal keeps within `[0, 1]`). -/
theorem c7_channels_in_unit_for_unit_normal (ops : RealOps)
    (v1 v2 v3 : Vertex) (position normal : Vec3) (tex_coords : Vec2)
    (hn : Vec3.normSq normal = 1) :
    channels_in_unit (star_channels ops v1 v2 v3 position normal tex_coords) ∧
    channels_in_unit (rocky_channels ops v1 v2 v3 position normal tex_coords) ∧
    channels_in_unit (azure_channels ops v1 v2 v3 position normal tex_coords) ∧
    channels_in_unit (crimson_channels ops v1 v2 v3 position normal tex_coords) ∧
    channels_in_unit (gas_channels ops v1 v2 v3 position normal tex_coords) ∧
    channels_in_unit (moon_channels ops v1 v2 v3 position normal tex_coords) ∧
    channels_in_unit (ring_channels ops v1 v2 v3 position normal tex_coords) ∧
    channels_in_unit (ship_channels ops v1 v2 v3 position normal tex_coords) := by
  have hI := diffuse_intensity_unit_z normal hn
  have hrgb := rocky_rgb_in_unit ops position
  obtain ⟨r1, r2, r3, r4, r5, r6⟩ := hrgb
  have hgray : 0.2 ≤ moon_gray ops position ∧ moon_gray ops position ≤ 0.8 := by
    unfold moon_gray
    exact rclamp_mem (by norm_num)
  refine ⟨?_, ?_, clamped_in_unit, clamped_in_unit, clamped_in_unit, ?_,
    clamped_in_unit, clamped_in_unit⟩
  · exact ⟨(mul_factor_in_unit (rclamp_mem (by norm_num)) hI (by norm_num)
        (by norm_num) (by norm_num)).1,
      (mul_factor_in_unit (rclamp_mem (by norm_num)) hI (by norm_num)
        (by norm_num) (by norm_num)).2,
      (mul_factor_in_unit (rclamp_mem (by norm_num)) hI (by norm_num)
        (by norm_num) (by norm_num)).1,
      (mul_factor_in_unit (rclamp_mem (by norm_num)) hI (by norm_num)
        (by norm_num) (by norm_num)).2,
      (mul_factor_in_unit (rclamp_mem (by norm_num)) hI (by norm_num)
        (by norm_num) (by norm_num)).1,
      (mul_factor_in_unit (rclamp_mem (by norm_num)) hI (by norm_num)
        (by norm_num) (by norm_num)).2⟩
  · exact ⟨(mul_factor_in_unit ⟨r1, r2⟩ hI (by norm_num) (by norm_num)
        (by norm_num)).1,
      (mul_factor_in_unit ⟨r1, r2⟩ hI (by norm_num) (by norm_num)
        (by norm_num)).2,
      (mul_factor_in_unit ⟨r3, r4⟩ hI (by norm_num) (by norm_num)
        (by norm_num)).1,
      (mul_factor_in_unit ⟨r3, r4⟩ hI (by norm_num) (by norm_num)
        (by norm_num)).2,
      (mul_factor_in_unit ⟨r5, r6⟩ hI (by norm_num) (by norm_num)
        (by norm_num)).1,
      (mul_factor_in_unit ⟨r5, r6⟩ hI (by norm_num) (by norm_num)
        (by norm_num)).2⟩
  · have hv : 0 ≤ moon_gray ops position ∧ moon_gray ops position ≤ 1 :=
      ⟨by linarith [hgray.1], by linarith [hgray.2]⟩
    exact ⟨(mul_factor_in_unit hv hI (by norm_num) (by norm_num)
        (by norm_num)).1,
      (mul_factor_in_unit hv hI (by norm_num) (by norm_num) (by norm_num)).2,
      (mul_factor_in_unit hv hI (by norm_num) (by norm_num) (by norm_num)).1,
      (mul_factor_in_unit hv hI (by norm_num) (by norm_num) (by norm_num)).2,
      (mul_factor_in_unit hv hI (by norm_num) (by norm_num) (by norm_num)).1,
      (mul_factor_in_unit hv hI (by norm_num) (by norm_num) (by norm_num)).2⟩

theorem c7_channels_in_unit_for_unit_normal_witness :
    Vec3.normSq ⟨0, 0, 1⟩ = 1 ∧
    (channels_in_unit (star_channels sampleOps v0 v0 v0 ⟨0, 0, 0⟩ ⟨0, 0, 1⟩ ⟨0, 0⟩) ∧
     channels_in_unit (rocky_channels sampleOps v0 v0 v0 ⟨0, 0, 0⟩ ⟨0, 0, 1⟩ ⟨0, 0⟩) ∧
     channels_in_unit (azure_channels sampleOps v0 v0 v0 ⟨0, 0, 0⟩ ⟨0, 0, 1⟩ ⟨0, 0⟩) ∧
     channels_in_unit (crimson_channels sampleOps v0 v0 v0 ⟨0, 0, 0⟩ ⟨0, 0, 1⟩ ⟨0, 0⟩) ∧
     channels_in_unit (gas_channels sampleOps v0 v0 v0 ⟨0, 0, 0⟩ ⟨0, 0, 1⟩ ⟨0, 0⟩) ∧
     channels_in_unit (moon_channels sampleOps v0 v0 v0 ⟨0, 0, 0⟩ ⟨0, 0, 1⟩ ⟨0, 0⟩) ∧
     channels_in_unit (ring_channels sampleOps v0 v0 v0 ⟨0, 0, 0⟩ ⟨0, 0, 1⟩ ⟨0, 0⟩) ∧
     channels_in_unit (ship_channels sampleOps v0 v0 v0 ⟨0, 0, 0⟩ ⟨0, 0, 1⟩ ⟨0, 0⟩)) :=
  ⟨of_decide_eq_true (by with_unfolding_all rfl),
   c7_channels_in_unit_for_unit_normal sampleOps v0 v0 v0 ⟨0, 0, 0⟩ ⟨0, 0, 1⟩
     ⟨0, 0⟩ (of_decide_eq_true (by with_unfolding_all rfl))⟩

/-! ## C8: the diffuse lighting convention -/

theorem vec3_neg_neg (v : Vec3) : -(-v) = v := by
  show (⟨-(-v.x), -(-v.y), -(-v.z)⟩ : Vec3) = v
  rw [neg_neg, neg_neg, neg_neg]

/-- C8 as stated is refuted: `star_shader` computes its diffuse intensity
as `dot(normal, light_dir).max(0)` — it neither normalizes the normal nor
negates the stored light vector — so at the normal `(0,0,-2)` its channel
triple differs from what the spec formula
`max(0, dot(normalize(normal), -light_direction))` would produce. -/
theorem c8_counterexample_star_intensity_not_spec_formula :
    star_channels sampleOps v0 v0 v0 ⟨0, 0, 0⟩ ⟨0, 0, -2⟩ ⟨0, 0⟩ ≠
      star_core sampleOps
        (spec_diffuse_intensity sampleOps ⟨0, 0, -2⟩ star_light_dir)
        ⟨0, 0, 0⟩ ⟨0, 0, -2⟩ ⟨0, 0⟩ :=
  of_decide_eq_true (by with_unfolding_all rfl)

/-- C8 amended: each shader's diffuse intensity dots its *stored* light
vector (not its negation).  Star, rocky-planet, gas-giant, moon and ring
use the raw interpolated normal, `max(0, dot(normal, light_dir))`; azure,
crimson and ship normalize the normal first, which matches the spec
formula `max(0, dot(normalize(normal), -light_direction))` exactly when
`light_direction` is read as the negation of the stored vector. -/
theorem c8_diffuse_intensity_convention (ops : RealOps) (v1 v2 v3 : Vertex)
    (position normal : Vec3) (tex_coords : Vec2) :
    (star_channels ops v1 v2 v3 position normal tex_coords =
      star_core ops (diffuse_intensity normal star_light_dir)
        position normal tex_coords) ∧
    (rocky_channels ops v1 v2 v3 position normal tex_coords =
      rocky_core ops (diffuse_intensity normal rocky_light_dir)
        position normal tex_coords) ∧
    (gas_channels ops v1 v2 v3 position normal tex_coords =
      gas_core ops (diffuse_intensity normal gas_light_dir)
        position normal tex_coords) ∧
    (moon_channels ops v1 v2 v3 position normal tex_coords =
      moon_core ops (diffuse_intensity normal moon_light_dir)
        position normal tex_coords) ∧
    (ring_channels ops v1 v2 v3 position normal tex_coords =
      ring_core ops (diffuse_intensity normal ring_light_dir)
        position normal tex_coords) ∧
    (azure_channels ops v1 v2 v3 position normal tex_coords =
      azure_core ops
        (spec_diffuse_intensity ops normal (-(azure_light_dir ops)))
        position normal tex_coords) ∧
    (crimson_channels ops v1 v2 v3 position normal tex_coords =
      crimson_core ops
        (spec_diffuse_intensity ops normal (-(crimson_light_dir ops)))
        position normal tex_coords) ∧
    (ship_channels ops v1 v2 v3 position normal tex_coords =
      ship_core ops
        (spec_diffuse_intensity ops normal (-(ship_light_dir ops)))
        position normal tex_coords) := by
  refine ⟨rfl, rfl, rfl, rfl, rfl, ?_, ?_, ?_⟩ <;>
    · unfold spec_diffuse_intensity
      rw [vec3_neg_neg]
      rfl

/-! ## C9: `triangle` delegates to `triangle_with_shader` -/

/-- C9: `triangle` returns exactly the fragment list of
`triangle_with_shader` run with the constant shader that ignores its
arguments and returns `Color::new(100, 100, 100)`. -/
theorem c9_triangle_is_constant_shader_rasterization (ops : RealOps)
    (v1 v2 v3 : Vertex) :
    triangle ops v1 v2 v3 =
      triangle_with_shader ops v1 v2 v3
        (fun _ _ _ _ _ _ => Color.new 100 100 100) :=
  rfl

end Render
